import Mathlib

/-!
# Verification of the InstantNeo MCP server core

Shallow embedding of the MCP server dispatch core of the InstantNeo
repository (files `src/instantneo/mcp/server/core.py`,
`src/instantneo/mcp/server/handlers/tools.py`,
`src/instantneo/mcp/server/handlers/lifecycle.py`,
`src/instantneo/mcp/common/converters.py`,
`src/instantneo/mcp/common/jsonrpc.py`).

Modelling conventions, used consistently below:

* Python values that can flow through the dispatch core (JSON values,
  skill results, exception objects) are modelled by the inductive type
  `PyVal`.  JSON numbers are modelled as integers (no claim under
  consideration depends on non-integral numbers), dict keys are strings
  (all dicts the claims touch are JSON objects), and a Python dict is an
  insertion-ordered association list.
* A raised Python exception is modelled by `Except.error m` where `m`
  models `str(e)`.  The exact wording of exception messages produced by
  the Python runtime (`TypeError`, `AttributeError`) is modelled by
  descriptive strings; no claim depends on their exact text.
* `json.loads` is not re-implemented: `handle_message` takes the parse
  outcome as an `Option PyVal` argument, `none` standing for a
  `json.JSONDecodeError`.  `json.dumps` (an injective serialisation of
  the structured response) is likewise left abstract: theorems speak
  about the structured response the code serialises.
* Wall-clock time is an integer held in the server state (`time.time()`
  reads it); the skill registry (an external collaborator per the spec)
  is a finite association list carried in the server state.
-/

/-- Model of a Python runtime value as it flows through the MCP core:
`pynone`/`pybool`/`pyint`/`pystr`/`pylist`/`pydict` model the JSON-compatible
values, `pyexc` models an `Exception` instance (carrying `str(e)`), and
`pyobj` models any other object (carrying its `str()` rendering). -/
inductive PyVal : Type where
  | pynone : PyVal
  | pybool : Bool → PyVal
  | pyint : Int → PyVal
  | pystr : String → PyVal
  | pylist : List PyVal → PyVal
  | pydict : List (String × PyVal) → PyVal
  | pyexc : String → PyVal
  | pyobj : String → PyVal

mutual

/-- Structural equality test on `PyVal` (Python `==` restricted to the
values the claims compare; dict comparison is positional, which agrees
with Python on the dicts the theorems compare). -/
def beqPyVal : PyVal → PyVal → Bool
  | .pynone, .pynone => true
  | .pybool a, .pybool b => a == b
  | .pyint a, .pyint b => a == b
  | .pystr a, .pystr b => a == b
  | .pylist as, .pylist bs => beqPyList as bs
  | .pydict as, .pydict bs => beqPyPairs as bs
  | .pyexc a, .pyexc b => a == b
  | .pyobj a, .pyobj b => a == b
  | _, _ => false

/-- Elementwise equality of `PyVal` lists. -/
def beqPyList : List PyVal → List PyVal → Bool
  | [], [] => true
  | a :: as, b :: bs => beqPyVal a b && beqPyList as bs
  | _, _ => false

/-- Elementwise equality of keyed `PyVal` lists. -/
def beqPyPairs : List (String × PyVal) → List (String × PyVal) → Bool
  | [], [] => true
  | (k, v) :: as, (k2, v2) :: bs => k == k2 && beqPyVal v v2 && beqPyPairs as bs
  | _, _ => false

end

mutual

theorem beqPyVal_iff : (a b : PyVal) → (beqPyVal a b = true ↔ a = b)
  | .pynone, b => by cases b <;> simp [beqPyVal]
  | .pybool x, b => by cases b <;> simp [beqPyVal]
  | .pyint x, b => by cases b <;> simp [beqPyVal]
  | .pystr x, b => by cases b <;> simp [beqPyVal]
  | .pyexc x, b => by cases b <;> simp [beqPyVal]
  | .pyobj x, b => by cases b <;> simp [beqPyVal]
  | .pylist xs, .pylist ys => by
      simpa [beqPyVal] using beqPyList_iff xs ys
  | .pylist xs, .pynone => by simp [beqPyVal]
  | .pylist xs, .pybool y => by simp [beqPyVal]
  | .pylist xs, .pyint y => by simp [beqPyVal]
  | .pylist xs, .pystr y => by simp [beqPyVal]
  | .pylist xs, .pydict y => by simp [beqPyVal]
  | .pylist xs, .pyexc y => by simp [beqPyVal]
  | .pylist xs, .pyobj y => by simp [beqPyVal]
  | .pydict xs, .pydict ys => by
      simpa [beqPyVal] using beqPyPairs_iff xs ys
  | .pydict xs, .pynone => by simp [beqPyVal]
  | .pydict xs, .pybool y => by simp [beqPyVal]
  | .pydict xs, .pyint y => by simp [beqPyVal]
  | .pydict xs, .pystr y => by simp [beqPyVal]
  | .pydict xs, .pylist y => by simp [beqPyVal]
  | .pydict xs, .pyexc y => by simp [beqPyVal]
  | .pydict xs, .pyobj y => by simp [beqPyVal]

theorem beqPyList_iff : (as bs : List PyVal) → (beqPyList as bs = true ↔ as = bs)
  | [], [] => by simp [beqPyList]
  | [], _ :: _ => by simp [beqPyList]
  | _ :: _, [] => by simp [beqPyList]
  | a :: as, b :: bs => by
      simp [beqPyList, Bool.and_eq_true, beqPyVal_iff a b, beqPyList_iff as bs]

theorem beqPyPairs_iff : (as bs : List (String × PyVal)) →
    (beqPyPairs as bs = true ↔ as = bs)
  | [], [] => by simp [beqPyPairs]
  | [], _ :: _ => by simp [beqPyPairs]
  | (k, v) :: _, [] => by simp [beqPyPairs]
  | (k, v) :: as, (k2, v2) :: bs => by
      simp [beqPyPairs, Bool.and_eq_true, beqPyVal_iff v v2, beqPyPairs_iff as bs,
        Prod.ext_iff, and_assoc]

end

instance : DecidableEq PyVal := fun a b =>
  decidable_of_iff (beqPyVal a b = true) (beqPyVal_iff a b)

namespace PyVal

/-- `isinstance(v, dict)`. -/
def isDictB : PyVal → Bool
  | pydict _ => true
  | _ => false

/-- Python truthiness (`bool(v)`): `None`, `False`, `0`, `""`, `[]` and
`{}` are falsy; exceptions and other objects are truthy. -/
def pyTruthy : PyVal → Bool
  | pynone => false
  | pybool b => b
  | pyint n => n != 0
  | pystr s => !s.isEmpty
  | pylist xs => !xs.isEmpty
  | pydict kvs => !kvs.isEmpty
  | pyexc _ => true
  | pyobj _ => true

/-- The Python type name of a value, used to build exception messages. -/
def pyTypeName : PyVal → String
  | pynone => "NoneType"
  | pybool _ => "bool"
  | pyint _ => "int"
  | pystr _ => "str"
  | pylist _ => "list"
  | pydict _ => "dict"
  | pyexc _ => "Exception"
  | pyobj _ => "object"

end PyVal

open PyVal

/-- First-match association lookup, the model of reading a key of a
Python dict (keys are unique in a real dict, so first match is the
match). -/
def lookupA : List (String × PyVal) → String → Option PyVal
  | [], _ => none
  | (a, v) :: rest, k => if a = k then some v else lookupA rest k

/-- `d.get(k)` restricted to dict values (`none` when the key is absent
or the value is not a dict). -/
def dictGet? (m : PyVal) (k : String) : Option PyVal :=
  match m with
  | PyVal.pydict kvs => lookupA kvs k
  | _ => none

/-- `d.get(k, default)` on a dict value. -/
def dictGetD (m : PyVal) (k : String) (d : PyVal) : PyVal :=
  (dictGet? m k).getD d

/-- `k in d` for a dict value (`false` on non-dicts; the raising cases
of Python `in` are handled separately by `pyContainsStr`). -/
def hasKey (m : PyVal) (k : String) : Bool :=
  match m with
  | PyVal.pydict kvs => kvs.any (fun kv => kv.1 = k)
  | _ => false

/-- `d[k] = v` on an association list: replaces the value in place if
the key exists (Python dicts keep insertion position on update),
otherwise appends. -/
def dictSet (kvs : List (String × PyVal)) (k : String) (v : PyVal) :
    List (String × PyVal) :=
  if kvs.any (fun kv => kv.1 = k) then
    kvs.map (fun kv => if kv.1 = k then (k, v) else kv)
  else kvs ++ [(k, v)]

/-- Is `pat` a contiguous sublist (substring) of `s`?  Model of Python
`pat in s` for strings. -/
def subList (pat : List Char) : List Char → Bool
  | [] => pat = []
  | c :: rest => (pat.isPrefixOf (c :: rest)) || subList pat rest

/-- Model of the Python membership test `key in v` where `key` is a
string: key lookup on dicts, element equality on lists, substring test
on strings, and a `TypeError` (modelled as `Except.error`) on
non-container values — exactly the behaviour `handle_message` relies on
when it evaluates `"id" in message` (core.py line 187/198). -/
def pyContainsStr (m : PyVal) (key : String) : Except String Bool :=
  match m with
  | PyVal.pydict kvs => .ok (kvs.any (fun kv => kv.1 = key))
  | PyVal.pylist xs => .ok (xs.any (fun x => x = PyVal.pystr key))
  | PyVal.pystr s => .ok (subList key.data s.data)
  | other => .error ("argument of type " ++ pyTypeName other ++ " is not iterable")

/-- Message of the `AttributeError` raised by `v.get(...)` on a value
that is not a dict. -/
def noGetAttrMsg (v : PyVal) : String :=
  pyTypeName v ++ " object has no attribute get"

/-- `params.get(k, d)`: the dict read that every handler performs on its
`params`, raising (`Except.error`) when `params` is not a dict. -/
def pyAttrGetD (m : PyVal) (k : String) (d : PyVal) : Except String PyVal :=
  match m with
  | PyVal.pydict _ => .ok (dictGetD m k d)
  | other => .error (noGetAttrMsg other)

section PyStr

/-- Decimal digit character for `d < 10` (`chr(48 + d)`). -/
def digitChar (d : Nat) : Char := Char.ofNat (48 + d)

/-- Fuel-driven digit expansion (the fuel makes the recursion
structural; `natDigits` always supplies enough fuel). -/
def natDigitsAux : Nat → Nat → List Char
  | 0, _ => []
  | fuel + 1, n =>
    if n < 10 then [digitChar n]
    else natDigitsAux fuel (n / 10) ++ [digitChar (n % 10)]

/-- Decimal digits of a natural number, most significant first — the
model of Python `str(n)` for a non-negative integer. -/
def natDigits (n : Nat) : List Char := natDigitsAux (n + 1) n

theorem natDigitsAux_congr :
    ∀ (fuel₁ fuel₂ n : Nat), n < fuel₁ → n < fuel₂ →
      natDigitsAux fuel₁ n = natDigitsAux fuel₂ n := by
  intro fuel₁
  induction fuel₁ with
  | zero => intro fuel₂ n h1 _; omega
  | succ f ih =>
    intro fuel₂ n h1 h2
    cases fuel₂ with
    | zero => omega
    | succ g =>
      show natDigitsAux (f + 1) n = natDigitsAux (g + 1) n
      unfold natDigitsAux
      by_cases hn : n < 10
      · simp [hn]
      · simp only [hn, if_false]
        have hd : n / 10 < n := Nat.div_lt_self (by omega) (by omega)
        rw [ih g (n / 10) (by omega) (by omega)]

/-- The recursion equation of the digit expansion. -/
theorem natDigits_eq (n : Nat) :
    natDigits n =
      if n < 10 then [digitChar n]
      else natDigits (n / 10) ++ [digitChar (n % 10)] := by
  show natDigitsAux (n + 1) n = _
  unfold natDigitsAux
  by_cases hn : n < 10
  · simp [hn]
  · simp only [hn, if_false]
    have hd : n / 10 < n := Nat.div_lt_self (by omega) (by omega)
    rw [natDigitsAux_congr n (n / 10 + 1) (n / 10) (by omega) (by omega)]
    rfl

/-- `str(n)` for a natural number. -/
def natToStr (n : Nat) : String := ⟨natDigits n⟩

/-- `str(i)` for a Python integer. -/
def intToStr (i : Int) : String :=
  if i < 0 then "-" ++ natToStr i.natAbs else natToStr i.natAbs

mutual

/-- `str(v)`: the stringification the result converter and the error
messages apply to a value. -/
def pyStr : PyVal → String
  | PyVal.pynone => "None"
  | PyVal.pybool true => "True"
  | PyVal.pybool false => "False"
  | PyVal.pyint n => intToStr n
  | PyVal.pystr s => s
  | PyVal.pylist xs => "[" ++ pyReprItems xs ++ "]"
  | PyVal.pydict kvs => "\x7b" ++ pyReprPairs kvs ++ "\x7d"
  | PyVal.pyexc m => m
  | PyVal.pyobj r => r

/-- `repr(v)` (containers render their elements with `repr`). -/
def pyRepr : PyVal → String
  | PyVal.pystr s => "\x27" ++ s ++ "\x27"
  | v => pyStrAgain v

/-- Helper for the mutual recursion: `str` of a value already known not
to be handled differently by `repr` (everything except strings). -/
def pyStrAgain : PyVal → String
  | PyVal.pynone => "None"
  | PyVal.pybool true => "True"
  | PyVal.pybool false => "False"
  | PyVal.pyint n => intToStr n
  | PyVal.pystr s => s
  | PyVal.pylist xs => "[" ++ pyReprItems xs ++ "]"
  | PyVal.pydict kvs => "\x7b" ++ pyReprPairs kvs ++ "\x7d"
  | PyVal.pyexc m => m
  | PyVal.pyobj r => r

/-- Comma-separated `repr` of list elements. -/
def pyReprItems : List PyVal → String
  | [] => ""
  | [x] => pyRepr x
  | x :: rest => pyRepr x ++ ", " ++ pyReprItems rest

/-- Comma-separated `repr` of dict items. -/
def pyReprPairs : List (String × PyVal) → String
  | [] => ""
  | [(k, v)] => "\x27" ++ k ++ "\x27: " ++ pyRepr v
  | (k, v) :: rest => "\x27" ++ k ++ "\x27: " ++ pyRepr v ++ ", " ++ pyReprPairs rest

end

end PyStr

section IntParse

/-- The whitespace characters `str.strip()` / `int()` ignore. -/
def isPySpace (c : Char) : Bool :=
  c.toNat = 32 || c.toNat = 9 || c.toNat = 10 || c.toNat = 13 ||
    c.toNat = 11 || c.toNat = 12

/-- `str.strip()`: drop leading and trailing whitespace. -/
def stripChars (cs : List Char) : List Char :=
  ((cs.dropWhile isPySpace).reverse.dropWhile isPySpace).reverse

/-- ASCII decimal digit test. -/
def isDigitCh (c : Char) : Bool := 48 ≤ c.toNat && c.toNat ≤ 57

/-- Accumulating decimal parse of a digit run (fails at the first
non-digit). -/
def parseDigitsAux : Nat → List Char → Option Nat
  | acc, [] => some acc
  | acc, c :: rest =>
    if isDigitCh c then parseDigitsAux (acc * 10 + (c.toNat - 48)) rest else none

/-- Parse a non-empty all-digit string. -/
def parseDigits : List Char → Option Nat
  | [] => none
  | cs => parseDigitsAux 0 cs

/-- Sign handling of the `int()` model (after stripping). -/
def parsePySigned : List Char → Option Int
  | [] => none
  | c :: rest =>
    if c = '-' then (parseDigits rest).map (fun n => -(n : Int))
    else if c = '+' then (parseDigits rest).map (fun n => (n : Int))
    else (parseDigits (c :: rest)).map (fun n => (n : Int))

/-- Model of Python `int(s)` on a string: optional surrounding
whitespace, an optional sign, then one or more decimal digits
(`none` where `int()` raises `ValueError`; underscore digit grouping is
not modelled, no claim exercises it). -/
def parsePyIntChars (cs : List Char) : Option Int :=
  parsePySigned (stripChars cs)

/-- Model of `int(v)` as applied to the `tools/list` cursor: ints pass
through, bools coerce to 0/1, strings are parsed; anything else raises
`TypeError` — modelled as `none`, since the handler catches exactly
`(ValueError, TypeError)` (tools.py lines 34-38). -/
def pyIntCoerce : PyVal → Option Int
  | .pyint n => some n
  | .pybool b => some (if b then 1 else 0)
  | .pystr s => parsePyIntChars s.data
  | _ => none

end IntParse

section Slice

/-- Normalise one bound of a CPython slice `l[s:e]`: a negative index
counts from the end, then the bound is clamped into `[0, len]`. -/
def pySliceIdx (len : Nat) (i : Int) : Nat :=
  if i < 0 then ((len : Int) + i).toNat else min i.toNat len

/-- Python list slice `l[s:e]` (step 1). -/
def pySlice {α : Type} (xs : List α) (s e : Int) : List α :=
  (xs.take (pySliceIdx xs.length e)).drop (pySliceIdx xs.length s)

end Slice

section TypeMapper

/-- converters.py lines 59-76: split a comma-separated type list on the
commas at bracket depth zero; each chunk is `strip()`ed; at a comma the
(possibly empty) current chunk is always appended, while the final
chunk is appended only when non-empty. -/
def splitTopAux : List Char → Int → List Char → List (List Char)
  | [], _, cur => if cur.isEmpty then [] else [stripChars cur]
  | c :: rest, lvl, cur =>
    if c = '[' then splitTopAux rest (lvl + 1) (cur ++ [c])
    else if c = ']' then splitTopAux rest (lvl - 1) (cur ++ [c])
    else if c = ',' ∧ lvl = 0 then stripChars cur :: splitTopAux rest lvl []
    else splitTopAux rest lvl (cur ++ [c])

/-- The depth-zero comma split, started with level 0 and empty chunk. -/
def splitTop (cs : List Char) : List (List Char) := splitTopAux cs 0 []

theorem stripChars_length_le (cs : List Char) :
    (stripChars cs).length ≤ cs.length := by
  unfold stripChars
  have h1 : (cs.dropWhile isPySpace).length ≤ cs.length :=
    (List.dropWhile_suffix _).length_le
  have h2 : ((cs.dropWhile isPySpace).reverse.dropWhile isPySpace).length ≤
      (cs.dropWhile isPySpace).reverse.length :=
    (List.dropWhile_suffix _).length_le
  simp only [List.length_reverse] at h2 ⊢
  omega

theorem splitTopAux_mem_length :
    ∀ (cs : List Char) (lvl : Int) (cur p : List Char),
      p ∈ splitTopAux cs lvl cur → p.length ≤ cur.length + cs.length := by
  intro cs
  induction cs with
  | nil =>
    intro lvl cur p hp
    unfold splitTopAux at hp
    split at hp
    · simp at hp
    · simp only [List.mem_singleton] at hp
      subst hp
      simpa using stripChars_length_le cur
  | cons c rest ih =>
    intro lvl cur p hp
    unfold splitTopAux at hp
    split at hp
    · have := ih (lvl + 1) (cur ++ [c]) p hp
      simp at this ⊢
      omega
    · split at hp
      · have := ih (lvl - 1) (cur ++ [c]) p hp
        simp at this ⊢
        omega
      · split at hp
        · rcases List.mem_cons.mp hp with h | h
          · subst h
            have := stripChars_length_le cur
            simp
            omega
          · have := ih lvl [] p h
            simp at this ⊢
            omega
        · have := ih lvl (cur ++ [c]) p hp
          simp at this ⊢
          omega

theorem splitTop_mem_length {cs p : List Char} (hp : p ∈ splitTop cs) :
    p.length ≤ cs.length := by
  simpa using splitTopAux_mem_length cs 0 [] p hp

/-- converters.py lines 17-31: the fixed scalar-type table. -/
def basicPairs : List (List Char × PyVal) :=
  [("str".data, .pydict [("type", .pystr "string")]),
   ("int".data, .pydict [("type", .pystr "integer")]),
   ("float".data, .pydict [("type", .pystr "number")]),
   ("bool".data, .pydict [("type", .pystr "boolean")]),
   ("None".data, .pydict [("type", .pystr "null")]),
   ("any".data, .pydict []),
   ("Any".data, .pydict []),
   ("dict".data, .pydict [("type", .pystr "object")]),
   ("Dict".data, .pydict [("type", .pystr "object")]),
   ("list".data, .pydict [("type", .pystr "array")]),
   ("List".data, .pydict [("type", .pystr "array")]),
   ("tuple".data, .pydict [("type", .pystr "array")]),
   ("Tuple".data, .pydict [("type", .pystr "array")])]

/-- Key lookup in the scalar table (`python_type in basic_types` then
`basic_types[python_type]`). -/
def assocFindC : List (List Char × PyVal) → List Char → Option PyVal
  | [], _ => none
  | (k, v) :: rest, cs => if k = cs then some v else assocFindC rest cs

/-- `s.startswith(p)` on character lists. -/
def hasPre : List Char → List Char → Bool
  | [], _ => true
  | _ :: _, [] => false
  | p :: ps, c :: cs => if p = c then hasPre ps cs else false

theorem hasPre_length {p cs : List Char} (h : hasPre p cs = true) :
    p.length ≤ cs.length := by
  induction p generalizing cs with
  | nil => simp
  | cons a ps ih =>
    cases cs with
    | nil => simp [hasPre] at h
    | cons c rest =>
      unfold hasPre at h
      split at h
      · simpa using ih h
      · exact absurd h (by simp)

/-- converters.py lines 6-83, `_map_python_type_to_json_schema`,
operating on the character list of the semantic type token: scalar
table first, then the `List[`/`list[`, `Dict[`/`dict[`,
`Union[`/`Optional[` generic patterns in source order, `{}` otherwise. -/
def mapPyTypeCore (cs : List Char) : PyVal :=
  match assocFindC basicPairs cs with
  | some schema => schema
  | none =>
    if h1 : hasPre "List[".data cs = true ∨ hasPre "list[".data cs = true then
      .pydict [("type", .pystr "array"),
               ("items", mapPyTypeCore ((cs.drop 5).dropLast))]
    else if hasPre "Dict[".data cs = true ∨ hasPre "dict[".data cs = true then
      .pydict [("type", .pystr "object")]
    else if h3 : hasPre "Union[".data cs = true then
      .pydict [("anyOf", .pylist ((splitTop ((cs.drop 6).dropLast)).attach.map
        (fun p => mapPyTypeCore p.1)))]
    else if h4 : hasPre "Optional[".data cs = true then
      .pydict [("anyOf", .pylist ((splitTop ((cs.drop 9).dropLast)).attach.map
        (fun p => mapPyTypeCore p.1)))]
    else .pydict []
termination_by cs.length
decreasing_by
  · have h5 : 5 ≤ cs.length := by
      rcases h1 with h | h
      · simpa using hasPre_length h
      · simpa using hasPre_length h
    simp only [List.length_dropLast, List.length_drop]
    omega
  · have h6 : 6 ≤ cs.length := by simpa using hasPre_length h3
    have hm := splitTop_mem_length p.2
    simp only [List.length_dropLast, List.length_drop] at hm
    omega
  · have h9 : 9 ≤ cs.length := by simpa using hasPre_length h4
    have hm := splitTop_mem_length p.2
    simp only [List.length_dropLast, List.length_drop] at hm
    omega

/-- The type mapper on a string token. -/
def map_python_type_to_json_schema (s : String) : PyVal := mapPyTypeCore s.data

end TypeMapper

section Converters

/-- `isinstance(v, Exception)`. -/
def isExcB : PyVal → Bool
  | PyVal.pyexc _ => true
  | _ => false

/-- converters.py lines 147-177, `mcp_tool_result_to_response`: a dict
already containing a `content` key passes through unchanged; otherwise
the value is wrapped in a single text content block with `isError` set
iff the value is an `Exception` instance.  (The intermediate
`result = str(result)` reassignment for non-basic values is observably
absorbed by the final `str(result)`, `str` being idempotent on
strings.) -/
def mcp_tool_result_to_response (result : PyVal) : PyVal :=
  if result.isDictB && hasKey result "content" then result
  else
    let isErr : Bool := isExcB result
    PyVal.pydict
      [("content", PyVal.pylist
          [PyVal.pydict [("type", PyVal.pystr "text"),
                         ("text", PyVal.pystr (pyStr result))]]),
       ("isError", PyVal.pybool isErr)]

/-- converters.py lines 101-114: the `properties` loop of
`skill_metadata_to_mcp_tool`; raises (`Except.error`) when a
`param_info` is not a dict or a type token is not a string. -/
def buildProperties : List (String × PyVal) → Except String (List (String × PyVal))
  | [] => .ok []
  | (pname, pinfo) :: rest =>
    match pyAttrGetD pinfo "type" (PyVal.pystr "") with
    | .error e => .error e
    | .ok ptype =>
      match pyAttrGetD pinfo "description" (PyVal.pystr "") with
      | .error e => .error e
      | .ok pdesc =>
        match ptype with
        | PyVal.pystr ts =>
          let schema0 := map_python_type_to_json_schema ts
          let schema :=
            if pyTruthy pdesc then
              match schema0 with
              | PyVal.pydict kvs => PyVal.pydict (dictSet kvs "description" pdesc)
              | other => other
            else schema0
          (buildProperties rest).map (fun props => (pname, schema) :: props)
        | other => .error ("type token is not a string: " ++ pyTypeName other)

/-- converters.py lines 85-145, `skill_metadata_to_mcp_tool`; the
raising paths (`.get`/`.items` on a non-dict, `in` on a non-container
tags value) are `Except.error`. -/
def skill_metadata_to_mcp_tool (name : String) (metadata : PyVal) :
    Except String PyVal :=
  match pyAttrGetD metadata "description" (PyVal.pystr "") with
  | .error e => .error e
  | .ok description =>
    let parameters := dictGetD metadata "parameters" (PyVal.pydict [])
    let requiredParams := dictGetD metadata "required" (PyVal.pylist [])
    match parameters with
    | PyVal.pydict paramItems =>
      match buildProperties paramItems with
      | .error e => .error e
      | .ok props =>
        let inputSchema := PyVal.pydict
          ([("type", PyVal.pystr "object"), ("properties", PyVal.pydict props)] ++
            (if pyTruthy requiredParams then [("required", requiredParams)] else []))
        let tool0 : List (String × PyVal) :=
          [("name", PyVal.pystr name), ("description", description),
           ("inputSchema", inputSchema)]
        let tags := dictGetD metadata "tags" (PyVal.pylist [])
        if pyTruthy tags then
          match pyContainsStr tags "read_only", pyContainsStr tags "idempotent",
            pyContainsStr tags "destructive" with
          | .ok ro, .ok ide, .ok de =>
            let anns := [("tags", tags)] ++
              (if ro then [("readOnlyHint", PyVal.pybool true)] else []) ++
              (if ide then [("idempotentHint", PyVal.pybool true)] else []) ++
              (if de then [("destructiveHint", PyVal.pybool true)] else [])
            .ok (PyVal.pydict (tool0 ++ [("annotations", PyVal.pydict anns)]))
          | .error e, _, _ => .error e
          | _, .error e, _ => .error e
          | _, _, .error e => .error e
        else .ok (PyVal.pydict tool0)
    | other => .error (pyTypeName other ++ " object has no attribute items")

end Converters

section JsonRpc

/-- jsonrpc.py lines 74-89, `create_response`. -/
def create_response (result : PyVal) (rid : PyVal) : PyVal :=
  PyVal.pydict [("jsonrpc", PyVal.pystr "2.0"), ("result", result), ("id", rid)]

/-- jsonrpc.py lines 91-116, `create_error_response`; the handlers never
pass the optional `data` argument, so no `data` field appears. -/
def create_error_response (code : Int) (message : String) (rid : PyVal) : PyVal :=
  PyVal.pydict [("jsonrpc", PyVal.pystr "2.0"),
    ("error", PyVal.pydict [("code", PyVal.pyint code),
                            ("message", PyVal.pystr message)]),
    ("id", rid)]

end JsonRpc

section ServerModel

/-- The configuration keys the dispatch core reads.  Each field stands
for the value the corresponding `config.get(...)` call returns on the
merged config dict (defaults per config.py: `session_timeout` 3600,
`page_size` 100, `logging.level` "info"/"warning"/"debug" per
environment). -/
structure Config where
  session_timeout : Int
  server_name : String
  server_version : String
  page_size : Int
  log_level : String
deriving DecidableEq

/-- A registry entry of the out-of-scope skill collaborator.
`get_skill_by_name` may hand back a bare callable or — for duplicate
names — a dict of callables, from which `execute_tool` takes the first
value (core.py lines 335-337).  A callable models `skill(**arguments)`
as a function of the arguments dict returning a value or raising. -/
inductive SkillImpl : Type where
  | callable : (PyVal → Except String PyVal) → SkillImpl
  | overloadDict : List (PyVal → Except String PyVal) → SkillImpl

/-- A named skill: its metadata (as returned by
`get_skill_metadata_by_name`) and its implementation. -/
structure SkillEntry where
  metadata : PyVal
  impl : SkillImpl

/-- The `InstantMCPServer` state the dispatch path reads or writes,
plus the collaborating skill registry and the current `time.time()`
reading. -/
structure ServerState where
  config : Config
  sessions : List (String × PyVal)
  skills : List (String × SkillEntry)
  toolsCache : Option (List PyVal)
  now : Int

/-- `skill_manager.get_skill_by_name`. -/
def lookupSkill : List (String × SkillEntry) → String → Option SkillEntry
  | [], _ => none
  | (n, e) :: rest, k => if n = k then some e else lookupSkill rest k

/-- core.py lines 295-305: the tool-list generation loop of `get_tools`
(skills with falsy metadata are skipped). -/
def buildTools : List (String × SkillEntry) → Except String (List PyVal)
  | [] => .ok []
  | (n, e) :: rest =>
    if pyTruthy e.metadata then
      match skill_metadata_to_mcp_tool n e.metadata with
      | .error err => .error err
      | .ok t => (buildTools rest).map (fun ts => t :: ts)
    else buildTools rest

/-- core.py lines 285-307, `get_tools` (every in-repo caller leaves
`refresh` at False): on a cold cache build the list; the cache is set
only after the whole list is built, so a raising conversion leaves it
cold. -/
def get_tools (st : ServerState) : ServerState × Except String (List PyVal) :=
  match st.toolsCache with
  | some ts => (st, .ok ts)
  | none =>
    match buildTools st.skills with
    | .error e => (st, .error e)
    | .ok ts => ({ st with toolsCache := some ts }, .ok ts)

/-- The error envelope `execute_tool` builds on a failed invocation. -/
def errEnvelope (txt : String) : PyVal :=
  PyVal.pydict
    [("content", PyVal.pylist
        [PyVal.pydict [("type", PyVal.pystr "text"),
                       ("text", PyVal.pystr txt)]]),
     ("isError", PyVal.pybool true)]

/-- `skill(**arguments)`: the unpacking raises `TypeError` unless
`arguments` is a mapping, then the callable runs. -/
def pyCallKw (f : PyVal → Except String PyVal) (args : PyVal) :
    Except String PyVal :=
  match args with
  | PyVal.pydict _ => f args
  | other => .error ("argument of type " ++ pyTypeName other ++ " is not a mapping")

/-- The duplicate-name resolution `next(iter(skill.values()))` of
core.py lines 335-337 (`StopIteration` on an empty dict stringifies to
the empty message). -/
def pickCallable : SkillImpl → Except String (PyVal → Except String PyVal)
  | SkillImpl.callable f => .ok f
  | SkillImpl.overloadDict [] => .error ""
  | SkillImpl.overloadDict (f :: _) => .ok f

/-- core.py lines 309-357, `execute_tool`: total — every branch,
including every raise inside the `try`, ends in a result dict. -/
def execute_tool (st : ServerState) (toolName : String) (args : PyVal) : PyVal :=
  match lookupSkill st.skills toolName with
  | none => errEnvelope ("Error: Tool \x27" ++ toolName ++ "\x27 not found")
  | some entry =>
    match pickCallable entry.impl with
    | .error e => errEnvelope ("Error al ejecutar la herramienta: " ++ e)
    | .ok f =>
      match pyCallKw f args with
      | .error e => errEnvelope ("Error al ejecutar la herramienta: " ++ e)
      | .ok result => mcp_tool_result_to_response result

end ServerModel

section Handlers

/-- tools.py lines 13-61, `handle_list_tools`; the in-handler `except`
(`get_tools` raising, or `params.get` on a non-dict) yields the -32603
error response carrying the request id. -/
def handle_list_tools (st : ServerState) (params : PyVal) (rid : PyVal) :
    ServerState × PyVal :=
  match get_tools st with
  | (st2, .error e) =>
    (st2, create_error_response (-32603) ("Error interno: " ++ e) rid)
  | (st2, .ok tools) =>
    match pyAttrGetD params "cursor" PyVal.pynone with
    | .error e =>
      (st2, create_error_response (-32603) ("Error interno: " ++ e) rid)
    | .ok cursor =>
      let pageSize := st2.config.page_size
      let startIndex : Int :=
        if pyTruthy cursor then
          match pyIntCoerce cursor with
          | some n => n
          | none => 0
        else 0
      let endIndex : Int := min (startIndex + pageSize) (tools.length : Int)
      let nextCursor : Option String :=
        if endIndex < (tools.length : Int) then some (intToStr endIndex) else none
      let pageTools := pySlice tools startIndex endIndex
      let result := PyVal.pydict
        ([("tools", PyVal.pylist pageTools)] ++
          (match nextCursor with
           | some c => [("nextCursor", PyVal.pystr c)]
           | none => []))
      (st2, create_response result rid)

/-- tools.py lines 63-118, `handle_call_tool`.  With a non-dict
`params` the `params.get` inside the `try` raises and the `params.get`
inside the `except` logging line raises again, so the exception
propagates out of the handler (`Except.error`); with a dict `params`
nothing in the body can raise (`execute_tool` is total), making the
exception-to-envelope `except` branch unreachable. -/
def handle_call_tool (st : ServerState) (params : PyVal) (rid : PyVal) :
    ServerState × Except String PyVal :=
  match params with
  | PyVal.pydict _ =>
    let toolName := dictGetD params "name" PyVal.pynone
    let args := dictGetD params "arguments" (PyVal.pydict [])
    if pyTruthy toolName then
      match toolName with
      | PyVal.pystr s =>
        if (st.skills.map Prod.fst).contains s then
          (st, .ok (create_response
            (mcp_tool_result_to_response (execute_tool st s args)) rid))
        else
          (st, .ok (create_error_response (-32601) ("Tool no encontrada: " ++ s) rid))
      | other =>
        (st, .ok (create_error_response (-32601)
          ("Tool no encontrada: " ++ pyStr other) rid))
    else
      (st, .ok (create_error_response (-32602)
        "Falta el par\xe1metro \x27name\x27" rid))
  | other => (st, .error (noGetAttrMsg other))

/-- lifecycle.py lines 11-56, `handle_initialize` (the request handler
for the method "initialize").  The session record is stored before the
logging line reads `client_info.get(...)`, so with a non-dict
`clientInfo` the session is stored and the handler still answers
-32603 through its `except` branch; with a non-dict `params` the very
first `params.get` raises and nothing is stored. -/
def handleInitializeRequest (st : ServerState) (params : PyVal) (rid : PyVal) :
    ServerState × PyVal :=
  match params with
  | PyVal.pydict _ =>
    let cpv := dictGetD params "protocolVersion" PyVal.pynone
    let ccap := dictGetD params "capabilities" (PyVal.pydict [])
    let cinfo := dictGetD params "clientInfo" (PyVal.pydict [])
    let sid := "session_" ++ natToStr (st.sessions.length + 1)
    let sessionVal := PyVal.pydict
      [("id", PyVal.pystr sid), ("client_info", cinfo),
       ("client_capabilities", ccap), ("protocol_version", cpv),
       ("created_at", PyVal.pyint st.now),
       ("expires_at", PyVal.pyint (st.now + st.config.session_timeout))]
    let st2 := { st with sessions := dictSet st.sessions sid sessionVal }
    match cinfo with
    | PyVal.pydict _ =>
      let result := PyVal.pydict
        [("serverInfo", PyVal.pydict
            [("name", PyVal.pystr st.config.server_name),
             ("version", PyVal.pystr st.config.server_version)]),
         ("capabilities", PyVal.pydict [("tools", PyVal.pybool true)])]
      (st2, create_response result rid)
    | other =>
      (st2, create_error_response (-32603)
        ("Error interno: " ++ noGetAttrMsg other) rid)
  | other =>
    (st, create_error_response (-32603)
      ("Error interno: " ++ noGetAttrMsg other) rid)

/-- lifecycle.py lines 69-80, `handle_ping`. -/
def handle_ping (rid : PyVal) : PyVal := create_response (PyVal.pydict []) rid

end Handlers

section Dispatch

/-- core.py lines 233-265, `_handle_request`: exact string dispatch on
`method`; `.get` on a non-dict request raises. -/
def handle_request (st : ServerState) (req : PyVal) :
    ServerState × Except String PyVal :=
  match req with
  | PyVal.pydict _ =>
    let method := dictGetD req "method" (PyVal.pystr "")
    let params := dictGetD req "params" (PyVal.pydict [])
    let rid := dictGetD req "id" PyVal.pynone
    match method with
    | PyVal.pystr ms =>
      if ms = "initialize" then
        let r := handleInitializeRequest st params rid
        (r.1, .ok r.2)
      else if ms = "ping" then
        (st, .ok (handle_ping rid))
      else if ms = "tools/list" then
        let r := handle_list_tools st params rid
        (r.1, .ok r.2)
      else if ms = "tools/call" then
        handle_call_tool st params rid
      else
        (st, .ok (create_error_response (-32601)
          ("Method not found: " ++ ms) rid))
    | mval =>
      -- a non-string method compares unequal to every literal
      (st, .ok (create_error_response (-32601)
        ("Method not found: " ++ pyStr mval) rid))
  | other => (st, .error (noGetAttrMsg other))

/-- core.py lines 267-283, `_handle_notification`: every recognised or
unrecognised notification method is logging-only — no state change and
no response; `.get` on a non-dict raises. -/
def handle_notification (st : ServerState) (ntf : PyVal) :
    ServerState × Except String Unit :=
  match ntf with
  | PyVal.pydict _ => (st, .ok ())
  | other => (st, .error (noGetAttrMsg other))

/-- core.py lines 183-197: the batch loop.  Elements where
`"id" in msg` holds append their response to the accumulator;
notification elements are handled for side effect only; a raising
element aborts the loop (keeping the state mutations already made). -/
def runBatch (st : ServerState) (msgs : List PyVal) (acc : List PyVal) :
    ServerState × Except String (List PyVal) :=
  match msgs with
  | [] => (st, .ok acc)
  | m :: rest =>
    match pyContainsStr m "id" with
    | .error e => (st, .error e)
    | .ok true =>
      match handle_request st m with
      | (st2, .error e) => (st2, .error e)
      | (st2, .ok resp) => runBatch st2 rest (acc ++ [resp])
    | .ok false =>
      match handle_notification st m with
      | (st2, .error e) => (st2, .error e)
      | (st2, .ok _) => runBatch st2 rest acc

/-- core.py lines 178-205: the body of `handle_message`'s `try` block —
classify the parsed value and produce the optional response value
(`none` models returning `None`). -/
def routeTop (st : ServerState) (msg : PyVal) :
    ServerState × Except String (Option PyVal) :=
  match msg with
  | PyVal.pylist items =>
    match runBatch st items [] with
    | (st2, .error e) => (st2, .error e)
    | (st2, .ok rs) =>
      (st2, .ok (if rs.isEmpty then none else some (PyVal.pylist rs)))
  | m =>
    match pyContainsStr m "id" with
    | .error e => (st, .error e)
    | .ok true =>
      match handle_request st m with
      | (st2, .error e) => (st2, .error e)
      | (st2, .ok resp) => (st2, .ok (some resp))
    | .ok false =>
      match handle_notification st m with
      | (st2, .error e) => (st2, .error e)
      | (st2, .ok _) => (st2, .ok none)

/-- The -32700 response literal of core.py lines 209-216. -/
def parseErrorResponse : PyVal :=
  PyVal.pydict [("jsonrpc", PyVal.pystr "2.0"),
    ("error", PyVal.pydict [("code", PyVal.pyint (-32700)),
                            ("message", PyVal.pystr "Parse error")]),
    ("id", PyVal.pynone)]

/-- The -32603 response literal of core.py lines 222-230: the `data`
field carrying `str(e)` is attached unconditionally. -/
def internalErrorResponse (e : String) : PyVal :=
  PyVal.pydict [("jsonrpc", PyVal.pystr "2.0"),
    ("error", PyVal.pydict [("code", PyVal.pyint (-32603)),
                            ("message", PyVal.pystr "Internal error"),
                            ("data", PyVal.pystr e)]),
    ("id", PyVal.pynone)]

/-- core.py lines 167-231, `handle_message`.  The raw string argument
is replaced by the outcome of `json.loads` on it (`none` standing for
a `json.JSONDecodeError`). -/
def handle_message (st : ServerState) (parsed : Option PyVal) :
    ServerState × Option PyVal :=
  match parsed with
  | none => (st, some parseErrorResponse)
  | some msg =>
    match routeTop st msg with
    | (st2, .ok out) => (st2, out)
    | (st2, .error e) => (st2, some (internalErrorResponse e))

end Dispatch

section ConcreteStates

/-- A concrete development-environment configuration (config.py base
defaults; logging level "info", i.e. **not** debug). -/
def cfgInfo : Config := ⟨3600, "InstantNeo MCP Server", "1.0.0", 100, "info"⟩

/-- A server with an empty registry and a cold tools cache. -/
def stInfo : ServerState := ⟨cfgInfo, [], [], none, 0⟩

/-- A server whose tools cache is warm with three distinct tools. -/
def stTools : ServerState :=
  ⟨cfgInfo, [], [], some [PyVal.pystr "a", PyVal.pystr "b", PyVal.pystr "c"], 0⟩

/-- A skill returning a dict that already carries a `content` key (but
neither a content-block list nor an `isError` key). -/
def skContentDict : SkillEntry :=
  ⟨PyVal.pydict [],
   SkillImpl.callable (fun _ => Except.ok (PyVal.pydict [("content", PyVal.pyint 5)]))⟩

/-- A skill whose invocation raises. -/
def skBoom : SkillEntry :=
  ⟨PyVal.pydict [], SkillImpl.callable (fun _ => Except.error "boom")⟩

/-- A skill returning a plain integer. -/
def skPlain : SkillEntry :=
  ⟨PyVal.pydict [], SkillImpl.callable (fun _ => Except.ok (PyVal.pyint 42))⟩

/-- A server with the three sample skills registered. -/
def stSkills : ServerState :=
  ⟨cfgInfo, [], [("ok", skContentDict), ("boom", skBoom), ("plain", skPlain)], none, 0⟩

end ConcreteStates

/-- C9: for every input string that is not well-formed JSON
(`json.loads` raises `JSONDecodeError`, modelled by the `none` parse
outcome), `handle_message` returns the serialised Response with
`error.code == -32700` and `id == null`, the state untouched; being a
total Lean function, the model also certifies that no exception
escapes this path. -/
theorem C9_parse_error (st : ServerState) :
    handle_message st none =
      (st, some (PyVal.pydict [("jsonrpc", PyVal.pystr "2.0"),
        ("error", PyVal.pydict [("code", PyVal.pyint (-32700)),
                                ("message", PyVal.pystr "Parse error")]),
        ("id", PyVal.pynone)])) := rfl

/-- Any value satisfying the converter's pass-through test is a fixed
point of the converter. -/
theorem mcp_converter_fix (v : PyVal)
    (hv : (v.isDictB && hasKey v "content") = true) :
    mcp_tool_result_to_response v = v := by
  unfold mcp_tool_result_to_response
  rw [if_pos hv]

/-- On a value failing the pass-through test the converter builds the
single-text-block envelope. -/
theorem mcp_converter_wrap (v : PyVal)
    (hv : (v.isDictB && hasKey v "content") = false) :
    mcp_tool_result_to_response v =
      PyVal.pydict
        [("content", PyVal.pylist
            [PyVal.pydict [("type", PyVal.pystr "text"),
                           ("text", PyVal.pystr (pyStr v))]]),
         ("isError", PyVal.pybool (isExcB v))] := by
  unfold mcp_tool_result_to_response
  rw [hv]
  simp

/-- C10: the result-to-envelope converter is idempotent — every output
is a dict whose first key is `content`, and such dicts pass through the
`isinstance(result, dict) and "content" in result` test unchanged — and
`tools/call` relies on this by re-applying the converter to
`execute_tool`'s already-enveloped result without altering it. -/
theorem C10_converter_idempotent :
    (∀ v : PyVal,
       mcp_tool_result_to_response (mcp_tool_result_to_response v) =
         mcp_tool_result_to_response v) ∧
    (∀ (st : ServerState) (toolName : String) (args : PyVal),
       mcp_tool_result_to_response (execute_tool st toolName args) =
         execute_tool st toolName args) := by
  have key : ∀ v : PyVal,
      mcp_tool_result_to_response (mcp_tool_result_to_response v) =
        mcp_tool_result_to_response v := by
    intro v
    by_cases hv : (v.isDictB && hasKey v "content") = true
    · rw [mcp_converter_fix v hv, mcp_converter_fix v hv]
    · have hv2 : (v.isDictB && hasKey v "content") = false := by
        cases h : (v.isDictB && hasKey v "content")
        · rfl
        · exact absurd h hv
      rw [mcp_converter_wrap v hv2]
      exact mcp_converter_fix _ rfl
  refine ⟨key, ?_⟩
  intro st toolName args
  unfold execute_tool
  cases hl : lookupSkill st.skills toolName with
  | none => simp only [hl]; exact mcp_converter_fix _ rfl
  | some entry =>
    cases hpc : pickCallable entry.impl with
    | error e => simp only [hl, hpc]; exact mcp_converter_fix _ rfl
    | ok f =>
      cases hcall : pyCallKw f args with
      | error e => simp only [hl, hpc, hcall]; exact mcp_converter_fix _ rfl
      | ok r => simp only [hl, hpc, hcall]; exact key r

/-- C2 (amended): whenever routing the parsed message raises an uncaught
exception (modelled by `routeTop` ending in `Except.error e`),
`handle_message` returns the serialised -32603 internal-error Response
with id null and with the diagnostic `data` field (carrying `str(e)`)
attached **unconditionally** — for every server state and hence for
every logging verbosity, since core.py lines 219-231 never consult the
logging level. -/
theorem C2_internal_error (st st2 : ServerState) (msg : PyVal) (e : String)
    (h : routeTop st msg = (st2, Except.error e)) :
    handle_message st (some msg) = (st2, some (internalErrorResponse e)) := by
  have hm : handle_message st (some msg) =
      (match routeTop st msg with
       | (st3, Except.ok out) => (st3, out)
       | (st3, Except.error e2) => (st3, some (internalErrorResponse e2))) := rfl
  rw [hm, h]

/-- Witness for C2: on the concrete parsed input `5` (JSON text "5"),
routing raises (`"id" in 5` is a `TypeError`) and the -32603 response
with the `data` field is produced. -/
theorem C2_internal_error_witness :
    handle_message stInfo (some (PyVal.pyint 5)) =
      (stInfo, some (internalErrorResponse "argument of type int is not iterable")) :=
  C2_internal_error stInfo stInfo (PyVal.pyint 5)
    "argument of type int is not iterable" rfl

/-- C2, counterexample to the claim as stated: the claim says the
diagnostic `data` field is attached only at debug logging verbosity;
but on a server whose logging level is "info" the internal-error
Response for the routing-raising input `5` still carries
`error.data`. -/
theorem C2_counterexample :
    stInfo.config.log_level = "info" ∧
    (handle_message stInfo (some (PyVal.pyint 5))).2 =
      some (PyVal.pydict [("jsonrpc", PyVal.pystr "2.0"),
        ("error", PyVal.pydict [("code", PyVal.pyint (-32603)),
          ("message", PyVal.pystr "Internal error"),
          ("data", PyVal.pystr "argument of type int is not iterable")]),
        ("id", PyVal.pynone)]) :=
  ⟨rfl, rfl⟩

/-- C1 (amended): a `tools/call` whose params object carries a
non-empty string `name` that is not among the registered skill names is
answered with a JSON-RPC **error** Response with code -32601
("Tool no encontrada"), not with a successful Response whose payload
has `isError == true`. -/
theorem C1_unknown_tool (st : ServerState) (kvs : List (String × PyVal))
    (rid : PyVal) (s : String)
    (hname : dictGetD (PyVal.pydict kvs) "name" PyVal.pynone = PyVal.pystr s)
    (hne : s ≠ "")
    (hmem : (st.skills.map Prod.fst).contains s = false) :
    handle_call_tool st (PyVal.pydict kvs) rid =
      (st, Except.ok (create_error_response (-32601)
        ("Tool no encontrada: " ++ s) rid)) := by
  have hemp : s.isEmpty = false := by
    cases he : s.isEmpty
    · rfl
    · exact absurd ((String.isEmpty_iff s).mp he) hne
  unfold handle_call_tool
  simp only [hname, pyTruthy, hemp, Bool.not_false, if_true, hmem,
    Bool.false_eq_true, if_false]

/-- Witness for C1: the name "ghost" against an empty registry. -/
theorem C1_unknown_tool_witness :
    handle_call_tool stInfo (PyVal.pydict [("name", PyVal.pystr "ghost")])
        (PyVal.pyint 1) =
      (stInfo, Except.ok (create_error_response (-32601)
        ("Tool no encontrada: " ++ "ghost") (PyVal.pyint 1))) :=
  C1_unknown_tool stInfo [("name", PyVal.pystr "ghost")] (PyVal.pyint 1) "ghost"
    rfl (by decide) rfl

/-- The Response `handle_call_tool` gives for the unregistered name
"ghost": an error Response, carrying no `result` member. -/
def c1resp : PyVal :=
  PyVal.pydict [("jsonrpc", PyVal.pystr "2.0"),
    ("error", PyVal.pydict [("code", PyVal.pyint (-32601)),
      ("message", PyVal.pystr "Tool no encontrada: ghost")]),
    ("id", PyVal.pyint 2)]

/-- C1, counterexample to the claim as stated: calling the unregistered
tool "ghost" yields a Response with an `error` member and **no**
`result` member — not a successful Response with
`result.isError == true`. -/
theorem C1_counterexample :
    (handle_call_tool stInfo (PyVal.pydict [("name", PyVal.pystr "ghost")])
        (PyVal.pyint 2)).2 = Except.ok c1resp ∧
    hasKey c1resp "result" = false ∧ hasKey c1resp "error" = true :=
  ⟨rfl, rfl, rfl⟩

/-- C8 (amended): for an `initialize` request whose params and whose
`clientInfo` member (after the `{}` default) are objects, the handler
performs exactly one store into the session table under the key
`session_{n+1}` (n = table size at call time; an existing entry under
that key would be overwritten, the known collision property of the
scheme), with `expires_at = now + session_timeout` and
`created_at = now`, and returns the success Response
`{serverInfo: {name, version}, capabilities: {tools: true}}`. -/
theorem C8_initialize_session (st : ServerState) (kvs : List (String × PyVal))
    (ci : List (String × PyVal)) (rid : PyVal)
    (hci : dictGetD (PyVal.pydict kvs) "clientInfo" (PyVal.pydict []) =
      PyVal.pydict ci) :
    handleInitializeRequest st (PyVal.pydict kvs) rid =
      ({ st with sessions := (dictSet st.sessions
            ("session_" ++ natToStr (st.sessions.length + 1))
            (PyVal.pydict
              [("id", PyVal.pystr ("session_" ++ natToStr (st.sessions.length + 1))),
               ("client_info", PyVal.pydict ci),
               ("client_capabilities",
                 dictGetD (PyVal.pydict kvs) "capabilities" (PyVal.pydict [])),
               ("protocol_version",
                 dictGetD (PyVal.pydict kvs) "protocolVersion" PyVal.pynone),
               ("created_at", PyVal.pyint st.now),
               ("expires_at", PyVal.pyint (st.now + st.config.session_timeout))])) },
       create_response (PyVal.pydict
         [("serverInfo", PyVal.pydict
             [("name", PyVal.pystr st.config.server_name),
              ("version", PyVal.pystr st.config.server_version)]),
          ("capabilities", PyVal.pydict [("tools", PyVal.pybool true)])]) rid) := by
  unfold handleInitializeRequest
  simp only [hci]

/-- Witness for C8: initialize with empty params on the empty-session
server. -/
theorem C8_initialize_session_witness :
    handleInitializeRequest stInfo (PyVal.pydict []) (PyVal.pyint 1) =
      ({ stInfo with sessions := (dictSet stInfo.sessions
            ("session_" ++ natToStr (stInfo.sessions.length + 1))
            (PyVal.pydict
              [("id", PyVal.pystr ("session_" ++ natToStr (stInfo.sessions.length + 1))),
               ("client_info", PyVal.pydict []),
               ("client_capabilities",
                 dictGetD (PyVal.pydict []) "capabilities" (PyVal.pydict [])),
               ("protocol_version",
                 dictGetD (PyVal.pydict []) "protocolVersion" PyVal.pynone),
               ("created_at", PyVal.pyint stInfo.now),
               ("expires_at", PyVal.pyint (stInfo.now + stInfo.config.session_timeout))])) },
       create_response (PyVal.pydict
         [("serverInfo", PyVal.pydict
             [("name", PyVal.pystr stInfo.config.server_name),
              ("version", PyVal.pystr stInfo.config.server_version)]),
          ("capabilities", PyVal.pydict [("tools", PyVal.pybool true)])])
         (PyVal.pyint 1)) :=
  C8_initialize_session stInfo [] [] (PyVal.pyint 1) rfl

/-- C8, counterexample to the claim as stated: an initialize request
whose `clientInfo` is the (non-object) value `5` stores the session but
is answered with a -32603 **error** Response (the post-store logging
line raises), not the success Response the claim promises for every
initialize request. -/
theorem C8_counterexample :
    (handleInitializeRequest stInfo
        (PyVal.pydict [("clientInfo", PyVal.pyint 5)]) (PyVal.pyint 1)).2 =
      create_error_response (-32603)
        "Error interno: int object has no attribute get" (PyVal.pyint 1) ∧
    ((handleInitializeRequest stInfo
        (PyVal.pydict [("clientInfo", PyVal.pyint 5)]) (PyVal.pyint 1)).1).sessions.length = 1 :=
  ⟨rfl, rfl⟩

/-- C3 (amended): `execute_tool` is total (no exception propagates) and
always returns a dict containing a `content` key.  When the skill
raises, or returns a value that is not a dict containing `content`, the
result is exactly the
`{content: [{type: "text", text: str(result)}], isError: bool}`
envelope; but a skill return value that is already a dict containing
`content` is passed through unchanged, so it may lack the `isError`
key or a list-shaped `content`. -/
theorem C3_execute_tool_envelope :
    (∀ (st : ServerState) (name : String) (args : PyVal),
       ((execute_tool st name args).isDictB &&
         hasKey (execute_tool st name args) "content") = true) ∧
    (∀ (st : ServerState) (name : String) (args : PyVal),
       lookupSkill st.skills name = none →
       execute_tool st name args =
         errEnvelope ("Error: Tool \x27" ++ name ++ "\x27 not found")) ∧
    (∀ (st : ServerState) (name : String) (args : PyVal) (entry : SkillEntry)
       (f : PyVal → Except String PyVal) (r : PyVal),
       lookupSkill st.skills name = some entry →
       pickCallable entry.impl = Except.ok f →
       pyCallKw f args = Except.ok r →
       (r.isDictB && hasKey r "content") = true →
       execute_tool st name args = r) ∧
    (∀ (st : ServerState) (name : String) (args : PyVal) (entry : SkillEntry)
       (f : PyVal → Except String PyVal) (r : PyVal),
       lookupSkill st.skills name = some entry →
       pickCallable entry.impl = Except.ok f →
       pyCallKw f args = Except.ok r →
       (r.isDictB && hasKey r "content") = false →
       execute_tool st name args =
         PyVal.pydict
           [("content", PyVal.pylist
               [PyVal.pydict [("type", PyVal.pystr "text"),
                              ("text", PyVal.pystr (pyStr r))]]),
            ("isError", PyVal.pybool (isExcB r))]) ∧
    (∀ (st : ServerState) (name : String) (args : PyVal) (entry : SkillEntry)
       (f : PyVal → Except String PyVal) (e : String),
       lookupSkill st.skills name = some entry →
       pickCallable entry.impl = Except.ok f →
       pyCallKw f args = Except.error e →
       execute_tool st name args =
         errEnvelope ("Error al ejecutar la herramienta: " ++ e)) := by
  refine ⟨?_, ?_, ?_, ?_, ?_⟩
  · intro st name args
    unfold execute_tool
    cases hl : lookupSkill st.skills name with
    | none => rfl
    | some entry =>
      cases hpc : pickCallable entry.impl with
      | error e => simp only [hpc]; rfl
      | ok f =>
        cases hcall : pyCallKw f args with
        | error e => simp only [hpc, hcall]; rfl
        | ok r =>
          simp only [hpc, hcall]
          by_cases hr : (r.isDictB && hasKey r "content") = true
          · rw [mcp_converter_fix r hr]
            exact hr
          · have hr2 : (r.isDictB && hasKey r "content") = false := by
              cases h : (r.isDictB && hasKey r "content")
              · rfl
              · exact absurd h hr
            rw [mcp_converter_wrap r hr2]
            rfl
  · intro st name args hl
    unfold execute_tool
    rw [hl]
  · intro st name args entry f r hl hpc hcall hr
    unfold execute_tool
    rw [hl]
    simp only [hpc, hcall]
    exact mcp_converter_fix r hr
  · intro st name args entry f r hl hpc hcall hr
    unfold execute_tool
    rw [hl]
    simp only [hpc, hcall]
    exact mcp_converter_wrap r hr
  · intro st name args entry f e hl hpc hcall
    unfold execute_tool
    rw [hl]
    simp only [hpc, hcall]

/-- Witness for C3: the three sample skills exercise the not-found,
pass-through, raising and wrapping branches. -/
theorem C3_execute_tool_envelope_witness :
    ((execute_tool stSkills "plain" (PyVal.pydict [])).isDictB &&
      hasKey (execute_tool stSkills "plain" (PyVal.pydict [])) "content") = true ∧
    execute_tool stSkills "missing" (PyVal.pydict []) =
      errEnvelope ("Error: Tool \x27" ++ "missing" ++ "\x27 not found") ∧
    execute_tool stSkills "ok" (PyVal.pydict []) =
      PyVal.pydict [("content", PyVal.pyint 5)] ∧
    execute_tool stSkills "plain" (PyVal.pydict []) =
      PyVal.pydict
        [("content", PyVal.pylist
            [PyVal.pydict [("type", PyVal.pystr "text"),
                           ("text", PyVal.pystr (pyStr (PyVal.pyint 42)))]]),
         ("isError", PyVal.pybool (isExcB (PyVal.pyint 42)))] ∧
    execute_tool stSkills "boom" (PyVal.pydict []) =
      errEnvelope ("Error al ejecutar la herramienta: " ++ "boom") :=
  ⟨C3_execute_tool_envelope.1 stSkills "plain" (PyVal.pydict []),
   C3_execute_tool_envelope.2.1 stSkills "missing" (PyVal.pydict []) rfl,
   C3_execute_tool_envelope.2.2.1 stSkills "ok" (PyVal.pydict []) skContentDict
     (fun _ => Except.ok (PyVal.pydict [("content", PyVal.pyint 5)]))
     (PyVal.pydict [("content", PyVal.pyint 5)]) rfl rfl rfl rfl,
   C3_execute_tool_envelope.2.2.2.1 stSkills "plain" (PyVal.pydict []) skPlain
     (fun _ => Except.ok (PyVal.pyint 42)) (PyVal.pyint 42) rfl rfl rfl rfl,
   C3_execute_tool_envelope.2.2.2.2 stSkills "boom" (PyVal.pydict []) skBoom
     (fun _ => Except.error "boom") "boom" rfl rfl rfl⟩

/-- C3, counterexample to the claim as stated: a skill returning the
dict `{"content": 5}` is passed through unchanged by `execute_tool`, so
the returned envelope has no `isError` key and its `content` member is
not a list of content blocks. -/
theorem C3_counterexample :
    execute_tool stSkills "ok" (PyVal.pydict []) =
      PyVal.pydict [("content", PyVal.pyint 5)] ∧
    hasKey (PyVal.pydict [("content", PyVal.pyint 5)]) "isError" = false :=
  ⟨rfl, rfl⟩

/-- Is the Response a success Response (a `result` member, no `error`
member)? -/
def isSuccessResp (r : PyVal) : Bool := hasKey r "result" && !(hasKey r "error")

/-- C6 (amended): with the tool list available (warm cache),
`tools/list` answers every cursor value with a success Response (never
an error Response); a cursor that is falsy or whose `int()` coercion
raises (`ValueError`/`TypeError`) silently resets the offset to 0 —
the same response as with no cursor at all.  (A cursor parsing as a
**negative** integer, however, is *not* reset to 0: the negative start
index goes into Python slice semantics, see the counterexample.) -/
theorem C6_cursor (st : ServerState) (tools : List PyVal) (v rid : PyVal)
    (hc : st.toolsCache = some tools) :
    ((pyTruthy v = false ∨ pyIntCoerce v = none) →
       handle_list_tools st (PyVal.pydict [("cursor", v)]) rid =
         handle_list_tools st (PyVal.pydict []) rid) ∧
    isSuccessResp (handle_list_tools st (PyVal.pydict [("cursor", v)]) rid).2 = true := by
  have hg : get_tools st = (st, Except.ok tools) := by
    unfold get_tools
    rw [hc]
  have ha : pyAttrGetD (PyVal.pydict [("cursor", v)]) "cursor" PyVal.pynone =
      Except.ok v := rfl
  have ha0 : pyAttrGetD (PyVal.pydict []) "cursor" PyVal.pynone =
      Except.ok PyVal.pynone := rfl
  constructor
  · intro h
    unfold handle_list_tools
    simp only [hg, ha, ha0]
    rcases h with htr | hco
    · simp only [htr, Bool.false_eq_true, if_false]
      rfl
    · by_cases htr : pyTruthy v = true
      · simp only [htr, if_true, hco]
        rfl
      · have htr2 : pyTruthy v = false := by
          cases hb : pyTruthy v
          · rfl
          · exact absurd hb htr
        simp only [htr2, Bool.false_eq_true, if_false]
        rfl
  · unfold handle_list_tools
    simp only [hg, ha]
    rfl

/-- Witness for C6: the unparseable cursor "x" on the warm-cache
server behaves like no cursor and yields a success Response. -/
theorem C6_cursor_witness :
    (handle_list_tools stTools (PyVal.pydict [("cursor", PyVal.pystr "x")])
        (PyVal.pyint 1) =
      handle_list_tools stTools (PyVal.pydict []) (PyVal.pyint 1)) ∧
    isSuccessResp (handle_list_tools stTools
      (PyVal.pydict [("cursor", PyVal.pystr "x")]) (PyVal.pyint 1)).2 = true :=
  ⟨(C6_cursor stTools [PyVal.pystr "a", PyVal.pystr "b", PyVal.pystr "c"]
      (PyVal.pystr "x") (PyVal.pyint 1) rfl).1 (Or.inr rfl),
   (C6_cursor stTools [PyVal.pystr "a", PyVal.pystr "b", PyVal.pystr "c"]
      (PyVal.pystr "x") (PyVal.pyint 1) rfl).2⟩

/-- C6, counterexample to the claim as stated: the cursor "-1" does not
parse as a non-negative integer, yet the handler does **not** use start
offset 0: `int("-1")` succeeds, and the negative start index selects
the final page slice `tools[-1:3]` (the last tool) instead of the full
offset-0 page. -/
theorem C6_counterexample :
    (handle_list_tools stTools (PyVal.pydict [("cursor", PyVal.pystr "-1")])
        (PyVal.pyint 1)).2 =
      create_response (PyVal.pydict [("tools", PyVal.pylist [PyVal.pystr "c"])])
        (PyVal.pyint 1) ∧
    (handle_list_tools stTools (PyVal.pydict []) (PyVal.pyint 1)).2 =
      create_response (PyVal.pydict [("tools",
        PyVal.pylist [PyVal.pystr "a", PyVal.pystr "b", PyVal.pystr "c"])])
        (PyVal.pyint 1) :=
  ⟨rfl, rfl⟩

theorem strDataAppend (s t : String) : (s ++ t).data = s.data ++ t.data := by
  cases s; cases t; rfl

theorem hasPre_self_append : ∀ (p r : List Char), hasPre p (p ++ r) = true := by
  intro p
  induction p with
  | nil => intro r; rfl
  | cons c cs ih => intro r; simpa [hasPre] using ih r

theorem assocFindC_none_of_long (tbl : List (List Char × PyVal)) (cs : List Char)
    (htbl : ∀ p ∈ tbl, p.1.length ≤ 5) (h : 6 ≤ cs.length) :
    assocFindC tbl cs = none := by
  induction tbl with
  | nil => rfl
  | cons a rest ih =>
    unfold assocFindC
    rw [if_neg, ih (fun p hp => htbl p (List.mem_cons_of_mem _ hp))]
    intro he
    have := htbl a (List.mem_cons_self _ _)
    rw [he] at this
    omega

/-- A token matched by the scalar table maps to its table entry. -/
theorem mapCore_basic {cs : List Char} {v : PyVal}
    (h : assocFindC basicPairs cs = some v) : mapPyTypeCore cs = v := by
  unfold mapPyTypeCore
  rw [h]

/-- A token matching neither the table nor any generic pattern maps to
the unconstrained schema. -/
theorem mapCore_unknown {cs : List Char} (h0 : assocFindC basicPairs cs = none)
    (h1 : hasPre "List[".data cs = false) (h2 : hasPre "list[".data cs = false)
    (h3 : hasPre "Dict[".data cs = false) (h4 : hasPre "dict[".data cs = false)
    (h5 : hasPre "Union[".data cs = false)
    (h6 : hasPre "Optional[".data cs = false) :
    mapPyTypeCore cs = PyVal.pydict [] := by
  unfold mapPyTypeCore
  rw [h0, dif_neg (by simp [h1, h2]), if_neg (by simp [h3, h4]),
    dif_neg (by simp [h5]), dif_neg (by simp [h6])]

/-- The `List[...]` branch of the mapper, on the character level. -/
theorem mapCore_listTok (t : List Char) :
    mapPyTypeCore ("List[".data ++ (t ++ [']'])) =
      PyVal.pydict [("type", PyVal.pystr "array"), ("items", mapPyTypeCore t)] := by
  have hlen : 6 ≤ ("List[".data ++ (t ++ [']'])).length := by
    simp
  conv_lhs => unfold mapPyTypeCore
  rw [assocFindC_none_of_long basicPairs _ (by decide) hlen,
    dif_pos (Or.inl (hasPre_self_append "List[".data (t ++ [']'])))]
  have hdrop : ((("List[".data ++ (t ++ [']'])).drop 5).dropLast) = t := by
    have hx : ("List[".data ++ (t ++ [']'])).drop 5 = t ++ [']'] :=
      List.drop_left "List[".data (t ++ [']'])
    rw [hx, List.dropLast_concat]
  rw [hdrop]

/-- The `list[...]` branch of the mapper, on the character level. -/
theorem mapCore_listTok2 (t : List Char) :
    mapPyTypeCore ("list[".data ++ (t ++ [']'])) =
      PyVal.pydict [("type", PyVal.pystr "array"), ("items", mapPyTypeCore t)] := by
  have hlen : 6 ≤ ("list[".data ++ (t ++ [']'])).length := by
    simp
  conv_lhs => unfold mapPyTypeCore
  rw [assocFindC_none_of_long basicPairs _ (by decide) hlen,
    dif_pos (Or.inr (hasPre_self_append "list[".data (t ++ [']'])))]
  have hdrop : ((("list[".data ++ (t ++ [']'])).drop 5).dropLast) = t := by
    have hx : ("list[".data ++ (t ++ [']'])).drop 5 = t ++ [']'] :=
      List.drop_left "list[".data (t ++ [']'])
    rw [hx, List.dropLast_concat]
  rw [hdrop]

/-- The `Union[...]` branch of the mapper, on the character level: the
inner type list is split at the depth-zero commas and each (stripped)
part is mapped recursively. -/
theorem mapCore_unionTok (t : List Char) :
    mapPyTypeCore ("Union[".data ++ (t ++ [']'])) =
      PyVal.pydict [("anyOf", PyVal.pylist ((splitTop t).map mapPyTypeCore))] := by
  have hlen : 6 ≤ ("Union[".data ++ (t ++ [']'])).length := by
    simp
  have hL1 : hasPre "List[".data ("Union[".data ++ (t ++ [']'])) = false := rfl
  have hL2 : hasPre "list[".data ("Union[".data ++ (t ++ [']'])) = false := rfl
  have hD1 : hasPre "Dict[".data ("Union[".data ++ (t ++ [']'])) = false := rfl
  have hD2 : hasPre "dict[".data ("Union[".data ++ (t ++ [']'])) = false := rfl
  have hnotL : ¬(hasPre "List[".data ("Union[".data ++ (t ++ [']'])) = true ∨
      hasPre "list[".data ("Union[".data ++ (t ++ [']'])) = true) := by
    rintro (h | h)
    · rw [hL1] at h; exact Bool.noConfusion h
    · rw [hL2] at h; exact Bool.noConfusion h
  have hnotD : ¬(hasPre "Dict[".data ("Union[".data ++ (t ++ [']'])) = true ∨
      hasPre "dict[".data ("Union[".data ++ (t ++ [']'])) = true) := by
    rintro (h | h)
    · rw [hD1] at h; exact Bool.noConfusion h
    · rw [hD2] at h; exact Bool.noConfusion h
  conv_lhs => unfold mapPyTypeCore
  rw [assocFindC_none_of_long basicPairs _ (by decide) hlen,
    dif_neg hnotL, if_neg hnotD,
    dif_pos (hasPre_self_append "Union[".data (t ++ [']']))]
  have hdrop : ((("Union[".data ++ (t ++ [']'])).drop 6).dropLast) = t := by
    have hx : ("Union[".data ++ (t ++ [']'])).drop 6 = t ++ [']'] :=
      List.drop_left "Union[".data (t ++ [']'])
    rw [hx, List.dropLast_concat]
  rw [hdrop, List.attach_map_val]

/-- The `Optional[...]` branch of the mapper, on the character level. -/
theorem mapCore_optionalTok (t : List Char) :
    mapPyTypeCore ("Optional[".data ++ (t ++ [']'])) =
      PyVal.pydict [("anyOf", PyVal.pylist ((splitTop t).map mapPyTypeCore))] := by
  have hlen : 6 ≤ ("Optional[".data ++ (t ++ [']'])).length := by
    simp
  have hL1 : hasPre "List[".data ("Optional[".data ++ (t ++ [']'])) = false := rfl
  have hL2 : hasPre "list[".data ("Optional[".data ++ (t ++ [']'])) = false := rfl
  have hD1 : hasPre "Dict[".data ("Optional[".data ++ (t ++ [']'])) = false := rfl
  have hD2 : hasPre "dict[".data ("Optional[".data ++ (t ++ [']'])) = false := rfl
  have hU : hasPre "Union[".data ("Optional[".data ++ (t ++ [']'])) = false := rfl
  have hnotL : ¬(hasPre "List[".data ("Optional[".data ++ (t ++ [']'])) = true ∨
      hasPre "list[".data ("Optional[".data ++ (t ++ [']'])) = true) := by
    rintro (h | h)
    · rw [hL1] at h; exact Bool.noConfusion h
    · rw [hL2] at h; exact Bool.noConfusion h
  have hnotD : ¬(hasPre "Dict[".data ("Optional[".data ++ (t ++ [']'])) = true ∨
      hasPre "dict[".data ("Optional[".data ++ (t ++ [']'])) = true) := by
    rintro (h | h)
    · rw [hD1] at h; exact Bool.noConfusion h
    · rw [hD2] at h; exact Bool.noConfusion h
  have hnotU : ¬(hasPre "Union[".data ("Optional[".data ++ (t ++ [']'])) = true) := by
    intro h
    rw [hU] at h; exact Bool.noConfusion h
  conv_lhs => unfold mapPyTypeCore
  rw [assocFindC_none_of_long basicPairs _ (by decide) hlen,
    dif_neg hnotL, if_neg hnotD, dif_neg hnotU,
    dif_pos (hasPre_self_append "Optional[".data (t ++ [']']))]
  have hdrop : ((("Optional[".data ++ (t ++ [']'])).drop 9).dropLast) = t := by
    have hx : ("Optional[".data ++ (t ++ [']'])).drop 9 = t ++ [']'] :=
      List.drop_left "Optional[".data (t ++ [']'])
    rw [hx, List.dropLast_concat]
  rw [hdrop, List.attach_map_val]

/-- C7: the semantic-type-to-JSON-Schema mapper returns the fixed-table
fragment for the scalar tokens and `{}` for unknown tokens;
`{type:"array", items: recurse(T)}` for `List[T]`/`list[T]` tokens; and
`{anyOf: [recurse(t) ...]}` for `Union[...]`/`Optional[...]` tokens,
where the inner type list is split (`splitTop`) on the commas at
bracket-nesting depth zero only — commas inside nested brackets never
split. -/
theorem C7_type_mapper :
    (map_python_type_to_json_schema "str" = PyVal.pydict [("type", PyVal.pystr "string")] ∧
     map_python_type_to_json_schema "int" = PyVal.pydict [("type", PyVal.pystr "integer")] ∧
     map_python_type_to_json_schema "float" = PyVal.pydict [("type", PyVal.pystr "number")] ∧
     map_python_type_to_json_schema "bool" = PyVal.pydict [("type", PyVal.pystr "boolean")] ∧
     map_python_type_to_json_schema "None" = PyVal.pydict [("type", PyVal.pystr "null")] ∧
     map_python_type_to_json_schema "any" = PyVal.pydict [] ∧
     map_python_type_to_json_schema "Any" = PyVal.pydict [] ∧
     map_python_type_to_json_schema "dict" = PyVal.pydict [("type", PyVal.pystr "object")] ∧
     map_python_type_to_json_schema "Dict" = PyVal.pydict [("type", PyVal.pystr "object")] ∧
     map_python_type_to_json_schema "list" = PyVal.pydict [("type", PyVal.pystr "array")] ∧
     map_python_type_to_json_schema "List" = PyVal.pydict [("type", PyVal.pystr "array")] ∧
     map_python_type_to_json_schema "tuple" = PyVal.pydict [("type", PyVal.pystr "array")] ∧
     map_python_type_to_json_schema "Tuple" = PyVal.pydict [("type", PyVal.pystr "array")]) ∧
    (∀ s : String, assocFindC basicPairs s.data = none →
       hasPre "List[".data s.data = false → hasPre "list[".data s.data = false →
       hasPre "Dict[".data s.data = false → hasPre "dict[".data s.data = false →
       hasPre "Union[".data s.data = false → hasPre "Optional[".data s.data = false →
       map_python_type_to_json_schema s = PyVal.pydict []) ∧
    (∀ t : String, map_python_type_to_json_schema ("List[" ++ t ++ "]") =
       PyVal.pydict [("type", PyVal.pystr "array"),
                     ("items", map_python_type_to_json_schema t)]) ∧
    (∀ t : String, map_python_type_to_json_schema ("list[" ++ t ++ "]") =
       PyVal.pydict [("type", PyVal.pystr "array"),
                     ("items", map_python_type_to_json_schema t)]) ∧
    (∀ t : String, map_python_type_to_json_schema ("Union[" ++ t ++ "]") =
       PyVal.pydict [("anyOf",
         PyVal.pylist ((splitTop t.data).map mapPyTypeCore))]) ∧
    (∀ t : String, map_python_type_to_json_schema ("Optional[" ++ t ++ "]") =
       PyVal.pydict [("anyOf",
         PyVal.pylist ((splitTop t.data).map mapPyTypeCore))]) := by
  refine ⟨⟨?_, ?_, ?_, ?_, ?_, ?_, ?_, ?_, ?_, ?_, ?_, ?_, ?_⟩, ?_, ?_, ?_, ?_, ?_⟩
  · exact mapCore_basic rfl
  · exact mapCore_basic rfl
  · exact mapCore_basic rfl
  · exact mapCore_basic rfl
  · exact mapCore_basic rfl
  · exact mapCore_basic rfl
  · exact mapCore_basic rfl
  · exact mapCore_basic rfl
  · exact mapCore_basic rfl
  · exact mapCore_basic rfl
  · exact mapCore_basic rfl
  · exact mapCore_basic rfl
  · exact mapCore_basic rfl
  · intro s h0 h1 h2 h3 h4 h5 h6
    exact mapCore_unknown h0 h1 h2 h3 h4 h5 h6
  · intro t
    have hd : ("List[" ++ t ++ "]").data = "List[".data ++ (t.data ++ [']']) := by
      rw [strDataAppend, strDataAppend, List.append_assoc]
    show mapPyTypeCore ("List[" ++ t ++ "]").data = _
    rw [hd]
    exact mapCore_listTok t.data
  · intro t
    have hd : ("list[" ++ t ++ "]").data = "list[".data ++ (t.data ++ [']']) := by
      rw [strDataAppend, strDataAppend, List.append_assoc]
    show mapPyTypeCore ("list[" ++ t ++ "]").data = _
    rw [hd]
    exact mapCore_listTok2 t.data
  · intro t
    have hd : ("Union[" ++ t ++ "]").data = "Union[".data ++ (t.data ++ [']']) := by
      rw [strDataAppend, strDataAppend, List.append_assoc]
    show mapPyTypeCore ("Union[" ++ t ++ "]").data = _
    rw [hd]
    exact mapCore_unionTok t.data
  · intro t
    have hd : ("Optional[" ++ t ++ "]").data = "Optional[".data ++ (t.data ++ [']']) := by
      rw [strDataAppend, strDataAppend, List.append_assoc]
    show mapPyTypeCore ("Optional[" ++ t ++ "]").data = _
    rw [hd]
    exact mapCore_optionalTok t.data

/-- Witness for C7: the unknown token "foo" maps to the unconstrained
schema (all pattern hypotheses hold by computation). -/
theorem C7_type_mapper_witness :
    map_python_type_to_json_schema "foo" = PyVal.pydict [] :=
  C7_type_mapper.2.1 "foo" rfl rfl rfl rfl rfl rfl rfl

section BatchLemmas

/-- The `id` member of a message (default `null`). -/
def getId (m : PyVal) : PyVal := dictGetD m "id" PyVal.pynone

/-- The ids of the Request elements (those carrying an `id` key) of a
batch, in arrival order. -/
def reqIds (msgs : List PyVal) : List PyVal :=
  (msgs.filter (fun m => hasKey m "id")).map getId

/-- Is the value shaped like a JSON-RPC Response object (an `id` member
and a `result` or `error` member)? -/
def isRespShape (r : PyVal) : Bool :=
  r.isDictB && hasKey r "id" && (hasKey r "result" || hasKey r "error")

/-- Is the message a `tools/call` request (string method equal to
"tools/call")? -/
def isToolsCallReq (m : PyVal) : Bool :=
  match dictGetD m "method" (PyVal.pystr "") with
  | PyVal.pystr s => s = "tools/call"
  | _ => false

/-- A batch element whose processing cannot raise: a JSON object, and —
when it is a request for `tools/call` — one whose `params` member
(after the `{}` default) is an object.  (A non-object element raises at
`"id" in msg`; a `tools/call` request with non-object params raises
inside the handler's own `except` logging line.) -/
def elemSafe (m : PyVal) : Bool :=
  m.isDictB &&
    (!(hasKey m "id") || !(isToolsCallReq m) ||
      (dictGetD m "params" (PyVal.pydict [])).isDictB)

theorem getId_create_response (r rid : PyVal) :
    getId (create_response r rid) = rid := rfl

theorem respShape_create_response (r rid : PyVal) :
    isRespShape (create_response r rid) = true := rfl

theorem getId_create_error_response (c : Int) (msg : String) (rid : PyVal) :
    getId (create_error_response c msg rid) = rid := rfl

theorem respShape_create_error_response (c : Int) (msg : String) (rid : PyVal) :
    isRespShape (create_error_response c msg rid) = true := rfl

/-- The initialize handler always answers with the request id and a
Response-shaped object. -/
theorem initResp (st : ServerState) (params rid : PyVal) :
    getId (handleInitializeRequest st params rid).2 = rid ∧
    isRespShape (handleInitializeRequest st params rid).2 = true := by
  unfold handleInitializeRequest
  cases params with
  | pydict kvs =>
    cases hc : dictGetD (PyVal.pydict kvs) "clientInfo" (PyVal.pydict []) <;>
      simp only [hc] <;> exact ⟨rfl, rfl⟩
  | pynone => exact ⟨rfl, rfl⟩
  | pybool b => exact ⟨rfl, rfl⟩
  | pyint n => exact ⟨rfl, rfl⟩
  | pystr s => exact ⟨rfl, rfl⟩
  | pylist xs => exact ⟨rfl, rfl⟩
  | pyexc e => exact ⟨rfl, rfl⟩
  | pyobj o => exact ⟨rfl, rfl⟩

/-- The tools/list handler always answers with the request id and a
Response-shaped object. -/
theorem listResp (st : ServerState) (params rid : PyVal) :
    getId (handle_list_tools st params rid).2 = rid ∧
    isRespShape (handle_list_tools st params rid).2 = true := by
  unfold handle_list_tools
  cases hg : get_tools st with
  | mk st2 er =>
    cases er with
    | error e => simp only [hg]; exact ⟨rfl, rfl⟩
    | ok tools =>
      simp only [hg]
      cases hpa : pyAttrGetD params "cursor" PyVal.pynone with
      | error e => exact ⟨rfl, rfl⟩
      | ok cursor => exact ⟨rfl, rfl⟩

/-- The tools/call handler, on an object `params`, never raises and
answers with the request id and a Response-shaped object, leaving the
state unchanged. -/
theorem handle_call_tool_ok (st : ServerState) (kvs : List (String × PyVal))
    (rid : PyVal) :
    ∃ r, handle_call_tool st (PyVal.pydict kvs) rid = (st, Except.ok r) ∧
      getId r = rid ∧ isRespShape r = true := by
  by_cases ht : pyTruthy (dictGetD (PyVal.pydict kvs) "name" PyVal.pynone) = true
  · cases hn : dictGetD (PyVal.pydict kvs) "name" PyVal.pynone with
    | pystr s =>
      rw [hn] at ht
      unfold handle_call_tool
      simp only [hn, ht, if_true]
      by_cases hm : (st.skills.map Prod.fst).contains s = true
      · simp only [hm, if_true]
        exact ⟨_, rfl, rfl, rfl⟩
      · rw [Bool.not_eq_true] at hm
        simp only [hm, Bool.false_eq_true, if_false]
        exact ⟨_, rfl, rfl, rfl⟩
    | pynone =>
      rw [hn] at ht
      exact absurd ht (by simp [pyTruthy])
    | pybool b =>
      rw [hn] at ht
      unfold handle_call_tool
      simp only [hn, ht, if_true]
      exact ⟨_, rfl, rfl, rfl⟩
    | pyint n =>
      rw [hn] at ht
      unfold handle_call_tool
      simp only [hn, ht, if_true]
      exact ⟨_, rfl, rfl, rfl⟩
    | pylist xs =>
      rw [hn] at ht
      unfold handle_call_tool
      simp only [hn, ht, if_true]
      exact ⟨_, rfl, rfl, rfl⟩
    | pydict d =>
      rw [hn] at ht
      unfold handle_call_tool
      simp only [hn, ht, if_true]
      exact ⟨_, rfl, rfl, rfl⟩
    | pyexc e =>
      rw [hn] at ht
      unfold handle_call_tool
      simp only [hn, ht, if_true]
      exact ⟨_, rfl, rfl, rfl⟩
    | pyobj o =>
      rw [hn] at ht
      unfold handle_call_tool
      simp only [hn, ht, if_true]
      exact ⟨_, rfl, rfl, rfl⟩
  · rw [Bool.not_eq_true] at ht
    unfold handle_call_tool
    simp only [ht, Bool.false_eq_true, if_false]
    exact ⟨_, rfl, rfl, rfl⟩

end BatchLemmas

/-- A safe Request element (object, id-carrying, and with object params
when it is a `tools/call`) is answered without raising, by exactly one
Response sharing its id. -/
theorem handle_request_ok (st : ServerState) (m : PyVal)
    (hsafe : elemSafe m = true) (hid : hasKey m "id" = true) :
    ∃ st2 r, handle_request st m = (st2, Except.ok r) ∧
      getId r = getId m ∧ isRespShape r = true := by
  cases m with
  | pydict kvs =>
    cases hm : dictGetD (PyVal.pydict kvs) "method" (PyVal.pystr "") with
    | pystr ms =>
      by_cases h1 : ms = "initialize"
      · subst h1
        unfold handle_request
        simp only [hm, if_pos rfl]
        exact ⟨_, _, rfl, (initResp st _ _).1, (initResp st _ _).2⟩
      · by_cases h2 : ms = "ping"
        · subst h2
          unfold handle_request
          simp only [hm, h1, if_false, if_pos rfl]
          exact ⟨_, _, rfl, rfl, rfl⟩
        · by_cases h3 : ms = "tools/list"
          · subst h3
            unfold handle_request
            simp only [hm, h1, h2, if_false, if_pos rfl]
            exact ⟨_, _, rfl, (listResp st _ _).1, (listResp st _ _).2⟩
          · by_cases h4 : ms = "tools/call"
            · subst h4
              have htc : isToolsCallReq (PyVal.pydict kvs) = true := by
                unfold isToolsCallReq
                rw [hm]
                simp
              have hparams : (dictGetD (PyVal.pydict kvs) "params"
                  (PyVal.pydict [])).isDictB = true := by
                unfold elemSafe at hsafe
                rw [hid, htc] at hsafe
                exact (by simpa using hsafe :
                  (PyVal.pydict kvs).isDictB = true ∧
                  (dictGetD (PyVal.pydict kvs) "params"
                    (PyVal.pydict [])).isDictB = true).2
              cases hp : dictGetD (PyVal.pydict kvs) "params" (PyVal.pydict []) with
              | pydict ps =>
                unfold handle_request
                simp only [hm, h1, h2, h3, if_false, if_pos rfl, hp]
                obtain ⟨r, hr, hrid, hrs⟩ := handle_call_tool_ok st ps
                  (dictGetD (PyVal.pydict kvs) "id" PyVal.pynone)
                exact ⟨st, r, hr, hrid, hrs⟩
              | pynone => rw [hp] at hparams; exact absurd hparams (by simp [isDictB])
              | pybool b => rw [hp] at hparams; exact absurd hparams (by simp [isDictB])
              | pyint n => rw [hp] at hparams; exact absurd hparams (by simp [isDictB])
              | pystr s => rw [hp] at hparams; exact absurd hparams (by simp [isDictB])
              | pylist xs => rw [hp] at hparams; exact absurd hparams (by simp [isDictB])
              | pyexc e => rw [hp] at hparams; exact absurd hparams (by simp [isDictB])
              | pyobj o => rw [hp] at hparams; exact absurd hparams (by simp [isDictB])
            · unfold handle_request
              simp only [hm, h1, h2, h3, h4, if_false]
              exact ⟨_, _, rfl, rfl, rfl⟩
    | pynone => unfold handle_request; simp only [hm]; exact ⟨_, _, rfl, rfl, rfl⟩
    | pybool b => unfold handle_request; simp only [hm]; exact ⟨_, _, rfl, rfl, rfl⟩
    | pyint n => unfold handle_request; simp only [hm]; exact ⟨_, _, rfl, rfl, rfl⟩
    | pylist xs => unfold handle_request; simp only [hm]; exact ⟨_, _, rfl, rfl, rfl⟩
    | pydict d => unfold handle_request; simp only [hm]; exact ⟨_, _, rfl, rfl, rfl⟩
    | pyexc e => unfold handle_request; simp only [hm]; exact ⟨_, _, rfl, rfl, rfl⟩
    | pyobj o => unfold handle_request; simp only [hm]; exact ⟨_, _, rfl, rfl, rfl⟩
  | pynone => simp [elemSafe, isDictB] at hsafe
  | pybool b => simp [elemSafe, isDictB] at hsafe
  | pyint n => simp [elemSafe, isDictB] at hsafe
  | pystr s => simp [elemSafe, isDictB] at hsafe
  | pylist xs => simp [elemSafe, isDictB] at hsafe
  | pyexc e => simp [elemSafe, isDictB] at hsafe
  | pyobj o => simp [elemSafe, isDictB] at hsafe

/-- The batch loop on safe elements: it never raises, threads the state
left to right, and appends exactly one Response per id-carrying
element, in arrival order, each sharing that element's id. -/
theorem runBatch_ok :
    ∀ (msgs : List PyVal) (st : ServerState) (acc : List PyVal),
      (∀ m ∈ msgs, elemSafe m = true) →
      ∃ st2 rs, runBatch st msgs acc = (st2, Except.ok (acc ++ rs)) ∧
        rs.map getId = reqIds msgs ∧ rs.all isRespShape = true := by
  intro msgs
  induction msgs with
  | nil =>
    intro st acc _
    exact ⟨st, [], by simp [runBatch], by simp [reqIds], rfl⟩
  | cons m rest ih =>
    intro st acc h
    have hm := h m (List.mem_cons_self _ _)
    have hrest : ∀ x ∈ rest, elemSafe x = true :=
      fun x hx => h x (List.mem_cons_of_mem _ hx)
    have hdict : m.isDictB = true := by
      unfold elemSafe at hm
      exact (Bool.and_eq_true _ _).mp hm |>.1
    cases m with
    | pydict kvs =>
      have hcont : pyContainsStr (PyVal.pydict kvs) "id" =
          Except.ok (hasKey (PyVal.pydict kvs) "id") := rfl
      by_cases hid : hasKey (PyVal.pydict kvs) "id" = true
      · obtain ⟨st2, r, hreq, hrid, hshape⟩ := handle_request_ok st _ hm hid
        obtain ⟨st3, rs, hrun, hids, hall⟩ := ih st2 (acc ++ [r]) hrest
        refine ⟨st3, r :: rs, ?_, ?_, ?_⟩
        · unfold runBatch
          simp only [hcont, hid, hreq, hrun]
          rw [show (acc ++ [r]) ++ rs = acc ++ r :: rs by simp]
        · simp only [List.map_cons, hids, hrid, reqIds, List.filter_cons, hid,
            if_true]
        · simp [List.all_cons, hshape, hall]
      · rw [Bool.not_eq_true] at hid
        obtain ⟨st3, rs, hrun, hids, hall⟩ := ih st acc hrest
        refine ⟨st3, rs, ?_, ?_, hall⟩
        · unfold runBatch
          simp only [hcont, hid]
          rw [show handle_notification st (PyVal.pydict kvs) =
            (st, Except.ok ()) from rfl]
          exact hrun
        · simp only [reqIds, List.filter_cons, hid] at hids ⊢
          simpa using hids
    | pynone => simp [isDictB] at hdict
    | pybool b => simp [isDictB] at hdict
    | pyint n => simp [isDictB] at hdict
    | pystr s => simp [isDictB] at hdict
    | pylist xs => simp [isDictB] at hdict
    | pyexc e => simp [isDictB] at hdict
    | pyobj o => simp [isDictB] at hdict

/-- C4 (amended): for every batch all of whose elements are safe (JSON
objects whose `tools/call` requests carry object params), each element
carrying an id produces exactly one Response entry sharing that id,
collected in arrival order into a response array; elements without an
id are processed for side effect and contribute no entry; and if zero
Response entries resulted, `handle_message` returns null instead of an
empty array.  A single safe Request gets a single Response whose id
equals the request's id.  (A batch containing a non-object element, or
a `tools/call` request with non-object params, instead raises and is
answered by one -32603 error Response with id null — see the
counterexample.) -/
theorem C4_batch_responses :
    (∀ (st : ServerState) (msgs : List PyVal),
       (∀ m ∈ msgs, elemSafe m = true) →
       ∃ st2 rs, rs.map getId = reqIds msgs ∧ rs.all isRespShape = true ∧
         handle_message st (some (PyVal.pylist msgs)) =
           (st2, if rs.isEmpty then none else some (PyVal.pylist rs))) ∧
    (∀ (st : ServerState) (m : PyVal), elemSafe m = true →
       hasKey m "id" = true →
       ∃ st2 r, handle_message st (some m) = (st2, some r) ∧
         getId r = getId m ∧ isRespShape r = true) := by
  constructor
  · intro st msgs h
    obtain ⟨st2, rs, hrun, hids, hall⟩ := runBatch_ok msgs st [] h
    simp only [List.nil_append] at hrun
    refine ⟨st2, rs, hids, hall, ?_⟩
    have hroute : routeTop st (PyVal.pylist msgs) =
        (st2, Except.ok (if rs.isEmpty then none else some (PyVal.pylist rs))) := by
      unfold routeTop
      simp only [hrun]
    have hmsg : handle_message st (some (PyVal.pylist msgs)) =
        (match routeTop st (PyVal.pylist msgs) with
         | (s2, Except.ok out) => (s2, out)
         | (s2, Except.error e) => (s2, some (internalErrorResponse e))) := rfl
    rw [hmsg, hroute]
  · intro st m hsafe hid
    obtain ⟨st2, r, hreq, hrid, hshape⟩ := handle_request_ok st m hsafe hid
    have hdict : m.isDictB = true := by
      unfold elemSafe at hsafe
      exact (Bool.and_eq_true _ _).mp hsafe |>.1
    cases m with
    | pydict kvs =>
      refine ⟨st2, r, ?_, hrid, hshape⟩
      have hroute : routeTop st (PyVal.pydict kvs) = (st2, Except.ok (some r)) := by
        unfold routeTop
        simp only [show pyContainsStr (PyVal.pydict kvs) "id" =
          Except.ok (hasKey (PyVal.pydict kvs) "id") from rfl, hid, hreq]
      have hmsg : handle_message st (some (PyVal.pydict kvs)) =
          (match routeTop st (PyVal.pydict kvs) with
           | (s2, Except.ok out) => (s2, out)
           | (s2, Except.error e) => (s2, some (internalErrorResponse e))) := rfl
      rw [hmsg, hroute]
    | pynone => simp [isDictB] at hdict
    | pybool b => simp [isDictB] at hdict
    | pyint n => simp [isDictB] at hdict
    | pystr s => simp [isDictB] at hdict
    | pylist xs => simp [isDictB] at hdict
    | pyexc e => simp [isDictB] at hdict
    | pyobj o => simp [isDictB] at hdict

/-- Witness for C4: a batch of one ping request (id 1) and one
notification, processed against the empty-registry server. -/
theorem C4_batch_responses_witness :
    ∃ st2 rs,
      rs.map getId = reqIds
        [PyVal.pydict [("id", PyVal.pyint 1), ("method", PyVal.pystr "ping")],
         PyVal.pydict [("method", PyVal.pystr "noop")]] ∧
      rs.all isRespShape = true ∧
      handle_message stInfo (some (PyVal.pylist
        [PyVal.pydict [("id", PyVal.pyint 1), ("method", PyVal.pystr "ping")],
         PyVal.pydict [("method", PyVal.pystr "noop")]])) =
        (st2, if rs.isEmpty then none else some (PyVal.pylist rs)) :=
  C4_batch_responses.1 stInfo
    [PyVal.pydict [("id", PyVal.pyint 1), ("method", PyVal.pystr "ping")],
     PyVal.pydict [("method", PyVal.pystr "noop")]]
    (by decide)

/-- C4, counterexample to the claim as stated: in the batch
`[{"id":1,"method":"ping"}, 7]` the first element carries id 1, yet
`handle_message` does not return a response array containing its
Response — the non-object element `7` raises at `"id" in msg` and the
whole batch is answered by a single -32603 error object with id
null. -/
theorem C4_counterexample :
    handle_message stInfo (some (PyVal.pylist
      [PyVal.pydict [("id", PyVal.pyint 1), ("method", PyVal.pystr "ping")],
       PyVal.pyint 7])) =
      (stInfo, some (internalErrorResponse "argument of type int is not iterable")) :=
  rfl

section RoundTrip

theorem digitChar_isDigit {d : Nat} (hd : d < 10) :
    isDigitCh (digitChar d) = true := by
  interval_cases d <;> decide

theorem digitChar_not_dash {d : Nat} (hd : d < 10) : ¬(digitChar d = '-') := by
  interval_cases d <;> decide

theorem digitChar_not_plus {d : Nat} (hd : d < 10) : ¬(digitChar d = '+') := by
  interval_cases d <;> decide

theorem digitChar_val {d : Nat} (hd : d < 10) : (digitChar d).toNat - 48 = d := by
  interval_cases d <;> decide

theorem isPySpace_of_digit {c : Char} (hc : isDigitCh c = true) :
    isPySpace c = false := by
  unfold isDigitCh at hc
  unfold isPySpace
  simp only [Bool.and_eq_true, decide_eq_true_eq] at hc
  simp only [Bool.or_eq_false_iff, decide_eq_false_iff_not]
  omega

theorem natDigits_ne_nil (n : Nat) : natDigits n ≠ [] := by
  rw [natDigits_eq]
  by_cases h : n < 10
  · simp [h]
  · simp [h]

theorem natDigits_digits (n : Nat) : ∀ c ∈ natDigits n, isDigitCh c = true := by
  induction n using Nat.strong_induction_on with
  | _ n ih =>
    intro c hc
    rw [natDigits_eq] at hc
    by_cases h : n < 10
    · rw [if_pos h] at hc
      simp only [List.mem_singleton] at hc
      subst hc
      exact digitChar_isDigit h
    · rw [if_neg h] at hc
      rcases List.mem_append.mp hc with h1 | h1
      · exact ih (n / 10) (Nat.div_lt_self (by omega) (by omega)) c h1
      · simp only [List.mem_singleton] at h1
        subst h1
        exact digitChar_isDigit (Nat.mod_lt _ (by omega))

theorem parseDigitsAux_natDigits (n : Nat) :
    ∀ (acc : Nat) (rest : List Char),
      parseDigitsAux acc (natDigits n ++ rest) =
        parseDigitsAux (acc * 10 ^ (natDigits n).length + n) rest := by
  induction n using Nat.strong_induction_on with
  | _ n ih =>
    intro acc rest
    rw [natDigits_eq]
    by_cases h : n < 10
    · rw [if_pos h]
      show parseDigitsAux acc (digitChar n :: rest) = _
      simp only [parseDigitsAux, digitChar_isDigit h, if_true, digitChar_val h,
        List.length_singleton, pow_one]
    · rw [if_neg h]
      rw [List.append_assoc]
      rw [ih (n / 10) (Nat.div_lt_self (by omega) (by omega)) acc
        ([digitChar (n % 10)] ++ rest)]
      have hm : n % 10 < 10 := Nat.mod_lt _ (by omega)
      show parseDigitsAux _ (digitChar (n % 10) :: rest) = _
      simp only [parseDigitsAux, digitChar_isDigit hm, if_true, digitChar_val hm]
      congr 1
      rw [List.length_append, List.length_singleton, pow_succ]
      calc (acc * 10 ^ (natDigits (n / 10)).length + n / 10) * 10 + n % 10
          = acc * (10 ^ (natDigits (n / 10)).length * 10) +
              (n / 10 * 10 + n % 10) := by ring
        _ = acc * (10 ^ (natDigits (n / 10)).length * 10) + n := by
              omega

theorem dropWhile_eq_self_of_none {cs : List Char} {p : Char → Bool}
    (h : ∀ c ∈ cs, p c = false) : cs.dropWhile p = cs := by
  cases cs with
  | nil => rfl
  | cons c t =>
    rw [List.dropWhile_cons, h c (List.mem_cons_self _ _)]
    simp

theorem stripChars_digits (n : Nat) : stripChars (natDigits n) = natDigits n := by
  have hds := natDigits_digits n
  unfold stripChars
  rw [dropWhile_eq_self_of_none (fun c hc => isPySpace_of_digit (hds c hc)),
    dropWhile_eq_self_of_none
      (fun c hc => isPySpace_of_digit (hds c (List.mem_reverse.mp hc))),
    List.reverse_reverse]

theorem parsePy_natDigits (n : Nat) :
    parsePyIntChars (natDigits n) = some (n : Int) := by
  obtain ⟨c, t, hct⟩ : ∃ c t, natDigits n = c :: t := by
    cases h : natDigits n with
    | nil => exact absurd h (natDigits_ne_nil n)
    | cons c t => exact ⟨c, t, rfl⟩
  have hcdig : isDigitCh c = true :=
    natDigits_digits n c (by rw [hct]; exact List.mem_cons_self _ _)
  have hndash : ¬(c = '-') := by
    intro hc
    rw [hc] at hcdig
    exact absurd hcdig (by decide)
  have hnplus : ¬(c = '+') := by
    intro hc
    rw [hc] at hcdig
    exact absurd hcdig (by decide)
  unfold parsePyIntChars
  rw [stripChars_digits, hct]
  simp only [parsePySigned, hndash, if_false, hnplus]
  rw [← hct]
  have hpd : parseDigits (natDigits n) = parseDigitsAux 0 (natDigits n) := by
    rw [hct]
    rfl
  rw [hpd]
  have happ := parseDigitsAux_natDigits n 0 []
  rw [List.append_nil] at happ
  rw [happ]
  simp [parseDigitsAux]

/-- The cursor round trip: `int(str(n)) == n` for a natural page
index. -/
theorem pyIntCoerce_natToStr (n : Nat) :
    pyIntCoerce (PyVal.pystr (natToStr n)) = some (n : Int) := by
  show parsePyIntChars (natToStr n).data = some (n : Int)
  show parsePyIntChars (natDigits n) = some (n : Int)
  exact parsePy_natDigits n

/-- `str(n)` is never the empty string, hence a truthy cursor value. -/
theorem pyTruthy_natToStr (n : Nat) :
    pyTruthy (PyVal.pystr (natToStr n)) = true := by
  show (!(natToStr n).isEmpty) = true
  have hne : natToStr n ≠ "" := by
    intro h
    have := congrArg String.data h
    exact absurd this (by simpa using natDigits_ne_nil n)
  cases he : (natToStr n).isEmpty
  · rfl
  · exact absurd ((String.isEmpty_iff _).mp he) hne

end RoundTrip

section Pagination

theorem pySliceIdx_ofNat (len m : Nat) : pySliceIdx len (m : Int) = min m len := by
  unfold pySliceIdx
  rw [if_neg (by omega)]
  simp

theorem intToStr_ofNat (m : Nat) : intToStr (m : Int) = natToStr m := by
  unfold intToStr
  rw [if_neg (by omega)]
  simp

/-- The result object of one `tools/list` page at start offset `n` with
page size `ps`: the slice `tools[n : min(n+ps, len)]` plus a
`nextCursor` of `str(min(n+ps, len))` exactly when that end index is
strictly below the total. -/
def pageDict (tools : List PyVal) (ps n : Nat) : PyVal :=
  PyVal.pydict
    ([("tools", PyVal.pylist ((tools.take (min (n + ps) tools.length)).drop n))] ++
      (if min (n + ps) tools.length < tools.length
       then [("nextCursor", PyVal.pystr (natToStr (min (n + ps) tools.length)))]
       else []))

theorem dictGetD_result (x rid : PyVal) :
    dictGetD (create_response x rid) "result" (PyVal.pydict []) = x := rfl

/-- One `tools/list` call with the cursor `str(n)` against a warm cache
produces exactly the page object at offset `n`. -/
theorem handle_list_tools_page (st : ServerState) (tools : List PyVal)
    (rid : PyVal) (ps : Nat) (hc : st.toolsCache = some tools)
    (hps : st.config.page_size = (ps : Int)) (n : Nat) (hn : n ≤ tools.length) :
    handle_list_tools st (PyVal.pydict [("cursor", PyVal.pystr (natToStr n))]) rid =
      (st, create_response (pageDict tools ps n) rid) := by
  have hg : get_tools st = (st, Except.ok tools) := by
    unfold get_tools
    rw [hc]
  have ha : pyAttrGetD (PyVal.pydict [("cursor", PyVal.pystr (natToStr n))])
      "cursor" PyVal.pynone = Except.ok (PyVal.pystr (natToStr n)) := rfl
  unfold handle_list_tools
  simp only [hg, ha, pyTruthy_natToStr, if_true, pyIntCoerce_natToStr, hps]
  have hmin : min ((n : Int) + (ps : Int)) ((tools.length : Nat) : Int) =
      ((min (n + ps) tools.length : Nat) : Int) := by
    push_cast
    rfl
  rw [hmin]
  have hslice : pySlice tools ((n : Nat) : Int)
      ((min (n + ps) tools.length : Nat) : Int) =
      (tools.take (min (n + ps) tools.length)).drop n := by
    unfold pySlice
    rw [pySliceIdx_ofNat, pySliceIdx_ofNat,
      Nat.min_eq_left (Nat.min_le_right (n + ps) tools.length),
      Nat.min_eq_left hn]
  rw [hslice]
  simp only [Nat.cast_lt, intToStr_ofNat]
  unfold pageDict
  by_cases hcond : min (n + ps) tools.length < tools.length
  · rw [if_pos hcond, if_pos hcond]
  · rw [if_neg hcond, if_neg hcond]

/-- The first `tools/list` call (no cursor) against a warm cache
produces the page object at offset 0. -/
theorem handle_list_tools_page0 (st : ServerState) (tools : List PyVal)
    (rid : PyVal) (ps : Nat) (hc : st.toolsCache = some tools)
    (hps : st.config.page_size = (ps : Int)) :
    handle_list_tools st (PyVal.pydict []) rid =
      (st, create_response (pageDict tools ps 0) rid) := by
  have hg : get_tools st = (st, Except.ok tools) := by
    unfold get_tools
    rw [hc]
  have ha : pyAttrGetD (PyVal.pydict []) "cursor" PyVal.pynone =
      Except.ok PyVal.pynone := rfl
  unfold handle_list_tools
  simp only [hg, ha, hps]
  have htr : pyTruthy PyVal.pynone = false := rfl
  simp only [htr, Bool.false_eq_true, if_false]
  have hmin : min ((0 : Int) + (ps : Int)) ((tools.length : Nat) : Int) =
      ((min (0 + ps) tools.length : Nat) : Int) := by
    push_cast
    rfl
  rw [hmin]
  have hslice : pySlice tools (0 : Int)
      ((min (0 + ps) tools.length : Nat) : Int) =
      (tools.take (min (0 + ps) tools.length)).drop 0 := by
    unfold pySlice
    rw [pySliceIdx_ofNat]
    have h0 : pySliceIdx tools.length (0 : Int) = 0 := by
      unfold pySliceIdx
      simp
    rw [h0, Nat.min_eq_left (Nat.min_le_right (0 + ps) tools.length)]
  rw [hslice]
  simp only [Nat.cast_lt, intToStr_ofNat]
  unfold pageDict
  by_cases hcond : min (0 + ps) tools.length < tools.length
  · rw [if_pos hcond, if_pos hcond]
  · rw [if_neg hcond, if_neg hcond]

/-- The page collector: call `tools/list`, read the page from the
Response, and keep following the returned `nextCursor` (string cursors
fed back verbatim), concatenating the `tools` arrays; `fuel` bounds the
number of pages. -/
def followPages (st : ServerState) (rid : PyVal) : Option String → Nat → List PyVal
  | _, 0 => []
  | cur, fuel + 1 =>
    let params := match cur with
      | none => PyVal.pydict []
      | some c => PyVal.pydict [("cursor", PyVal.pystr c)]
    let resp := (handle_list_tools st params rid).2
    let result := dictGetD resp "result" (PyVal.pydict [])
    let page := match dictGetD result "tools" (PyVal.pylist []) with
      | PyVal.pylist xs => xs
      | _ => []
    match dictGet? result "nextCursor" with
    | some (PyVal.pystr c2) => page ++ followPages st rid (some c2) fuel
    | _ => page

theorem pageDict_tools (tools : List PyVal) (ps n : Nat) :
    dictGetD (pageDict tools ps n) "tools" (PyVal.pylist []) =
      PyVal.pylist ((tools.take (min (n + ps) tools.length)).drop n) := by
  unfold pageDict
  by_cases hcond : min (n + ps) tools.length < tools.length
  · rw [if_pos hcond]
    rfl
  · rw [if_neg hcond]
    rfl

theorem pageDict_next_pos (tools : List PyVal) (ps n : Nat)
    (hcond : min (n + ps) tools.length < tools.length) :
    dictGet? (pageDict tools ps n) "nextCursor" =
      some (PyVal.pystr (natToStr (min (n + ps) tools.length))) := by
  unfold pageDict
  rw [if_pos hcond]
  rfl

theorem pageDict_next_none (tools : List PyVal) (ps n : Nat)
    (hcond : ¬(min (n + ps) tools.length < tools.length)) :
    dictGet? (pageDict tools ps n) "nextCursor" = none := by
  unfold pageDict
  rw [if_neg hcond]
  rfl

/-- Following the cursor from offset `n` collects exactly the remaining
suffix of the tool list. -/
theorem follow_from (st : ServerState) (tools : List PyVal) (rid : PyVal)
    (ps : Nat) (hc : st.toolsCache = some tools)
    (hps : st.config.page_size = (ps : Int)) (hps1 : 1 ≤ ps) :
    ∀ (fuel n : Nat), n ≤ tools.length → tools.length - n < fuel →
      followPages st rid (some (natToStr n)) fuel = tools.drop n := by
  intro fuel
  induction fuel with
  | zero => intro n _ hf; omega
  | succ f ih =>
    intro n hn hf
    have hresp := handle_list_tools_page st tools rid ps hc hps n hn
    simp only [followPages, hresp, dictGetD_result, pageDict_tools]
    by_cases hcond : min (n + ps) tools.length < tools.length
    · simp only [pageDict_next_pos tools ps n hcond]
      have hend : min (n + ps) tools.length = n + ps := by omega
      have hrec := ih (min (n + ps) tools.length) (le_of_lt hcond) (by omega)
      rw [hrec]
      have hne : n ≤ min (n + ps) tools.length := by omega
      rw [List.drop_take]
      have hsplit : tools.drop (min (n + ps) tools.length) =
          (tools.drop n).drop (min (n + ps) tools.length - n) := by
        rw [List.drop_drop]
        congr 1
        omega
      rw [hsplit, List.take_append_drop]
    · simp only [pageDict_next_none tools ps n hcond]
      have hend : min (n + ps) tools.length = tools.length := by omega
      rw [hend, List.take_length]

/-- C5: for every cached tool list and every page size ≥ 1: (a) a
`tools/list` page at offset `n` is the slice up to
`endIndex = min(n + pageSize, totalTools)` and carries
`nextCursor = str(endIndex)` exactly when `endIndex < totalTools`
(`pageDict` spells out that object); and (b) concatenating the `tools`
arrays of the pages obtained by starting at offset 0 and repeatedly
following the returned `nextCursor` yields the full tool list in
order, each tool exactly once. -/
theorem C5_pagination (st : ServerState) (tools : List PyVal) (rid : PyVal)
    (ps : Nat) (hc : st.toolsCache = some tools)
    (hps : st.config.page_size = (ps : Int)) (hps1 : 1 ≤ ps) :
    (∀ n : Nat, n ≤ tools.length →
       handle_list_tools st (PyVal.pydict [("cursor", PyVal.pystr (natToStr n))])
           rid =
         (st, create_response (pageDict tools ps n) rid)) ∧
    followPages st rid none (tools.length + 1) = tools := by
  refine ⟨fun n hn => handle_list_tools_page st tools rid ps hc hps n hn, ?_⟩
  have hresp := handle_list_tools_page0 st tools rid ps hc hps
  simp only [followPages, hresp, dictGetD_result, pageDict_tools]
  by_cases hcond : min (0 + ps) tools.length < tools.length
  · simp only [pageDict_next_pos tools ps 0 hcond]
    rw [follow_from st tools rid ps hc hps hps1 tools.length
      (min (0 + ps) tools.length) (le_of_lt hcond) (by omega)]
    rw [List.drop_take]
    have hsplit : tools.drop (min (0 + ps) tools.length) =
        (tools.drop 0).drop (min (0 + ps) tools.length - 0) := by
      rw [List.drop_drop]
      congr 1
      omega
    rw [hsplit, List.take_append_drop]
    exact List.drop_zero tools
  · simp only [pageDict_next_none tools ps 0 hcond]
    have hend : min (0 + ps) tools.length = tools.length := by omega
    rw [hend, List.take_length, List.drop_zero]

/-- Witness for C5: the three cached tools, page size 100, collected in
one page. -/
theorem C5_pagination_witness :
    followPages stTools (PyVal.pyint 1) none
        ([PyVal.pystr "a", PyVal.pystr "b", PyVal.pystr "c"].length + 1) =
      [PyVal.pystr "a", PyVal.pystr "b", PyVal.pystr "c"] :=
  (C5_pagination stTools [PyVal.pystr "a", PyVal.pystr "b", PyVal.pystr "c"]
    (PyVal.pyint 1) 100 rfl rfl (by decide)).2

end Pagination
